import Mathlib

/-!
Verification development for the Aio-Trader market-data feed client.

The definitions below are a shallow embedding of the Python sources:

* `aio_trader/AbstractFeeder.py` (the `retry` decorator),
* `aio_trader/AsyncRequest.py` (its `retry` decorator),
* `aio_trader/fyers/FyersFeed.py` (the HSM tick codec: snapshot and
  full-mode update merging, sentinel handling, and `__response_output`
  price scaling; the `subscribe` capacity check; `close`),
* `aio_trader/kite/KiteFeed.py` (`subscribe`, `unsubscribe`, `set_mode`,
  `close`),
* `aio_trader/dhan/DhanFeed.py` (`_validate_and_process_tuples`,
  `subscribe`, `unsubscribe_symbols`, `_process_disconnect`).

Python dicts are embedded as association lists with first-match lookup
and in-place replacement, mirroring unique-key dict behaviour.  Machine
integers decoded by `struct.unpack` are embedded as `Int` (the fields are
signed 32-bit reads, and no arithmetic overflowing 32 bits occurs in the
merge logic).  Float division in `__response_output` is embedded as `Rat`
division, which is exact wherever the Python computation is.
-/

/-- First-match lookup in an association list, as for a Python dict key
read (`d[k]` / `k in d`). -/
def aget? {κ α : Type} [DecidableEq κ] : List (κ × α) → κ → Option α
  | [], _ => none
  | (k, v) :: rest, key => if key = k then some v else aget? rest key

/-- Insert-or-replace, as for a Python dict key write (`d[k] = v`):
replaces the first binding of the key, else appends a new binding. -/
def asetK {κ α : Type} [DecidableEq κ] : List (κ × α) → κ → α → List (κ × α)
  | [], key, v => [(key, v)]
  | (k, w) :: rest, key, v =>
      if key = k then (k, v) :: rest else (k, w) :: asetK rest key v

/-- Key removal, as for a Python dict `pop`/`del` (keys are unique in a
dict, so removing the first binding is removing the binding). -/
def apop {κ α : Type} [DecidableEq κ] : List (κ × α) → κ → List (κ × α)
  | [], _ => []
  | (k, w) :: rest, key => if key = k then rest else (k, w) :: apop rest key

/-- The keys of an association list. -/
def akeys {κ α : Type} (d : List (κ × α)) : List κ := d.map Prod.fst

/-- `FyersFeed.__datafeed_resp`: the "no value" sentinel tested by every
field-merge branch (`value != -2147483648`). -/
def sentinel : Int := -2147483648

/-- Modelled from the spec: the field-name table `maps.data_val` for scrip
("sf") topics.  The `maps` module is absent from `src/`; the 21-entry
length matches the source comment "field_count - 21 in scrips", index 0 is
"ltp" (the lite-mode branch reads `maps.data_val[0]` and emits "ltp"), the
eight price names are the source's own `precision_calcu_value` list, and
"lower_ckt"/"upper_ckt"/"OI"/"Yhigh"/"Ylow" appear verbatim in
`__response_output`.  Remaining entries are the spec's quantity/volume
fields; only injectivity and membership of the named keys matter to the
proofs. -/
def data_val : List String :=
  ["ltp", "vol_traded_today", "last_traded_time", "exch_feed_time",
   "bid_size", "ask_size", "bid_price", "ask_price", "last_traded_qty",
   "tot_buy_qty", "tot_sell_qty", "avg_trade_price", "low_price",
   "high_price", "lower_ckt", "upper_ckt", "open_price",
   "prev_close_price", "OI", "Yhigh", "Ylow"]

/-- Modelled from the spec: `maps.index_val` for index ("if") topics
(6 entries per the source comment "6 in index"; `__response_output` scales
indices 0, 1, 3, 4, 5 and needs "ltp" and "prev_close_price"). -/
def index_val : List String :=
  ["ltp", "prev_close_price", "exch_feed_time", "high_price", "low_price",
   "open_price"]

/-- Modelled from the spec: `maps.depth_value` for depth ("dp") topics
(25 entries per the source comment "25 in depth"; `__response_output`
scales the first ten entries, the bid/ask ladder prices, and tests the
key "bidPrice1"). -/
def depth_value : List String :=
  ["bidPrice1", "bidPrice2", "bidPrice3", "bidPrice4", "bidPrice5",
   "askPrice1", "askPrice2", "askPrice3", "askPrice4", "askPrice5",
   "bidQty1", "bidQty2", "bidQty3", "bidQty4", "bidQty5",
   "askQty1", "askQty2", "askQty3", "askQty4", "askQty5",
   "bidOrd1", "bidOrd2", "bidOrd3", "bidOrd4", "bidOrd5"]

/-- Modelled from the spec: `maps.lite_val`, the fields emitted by the
lite-mode branch of `__response_output` ("ltp" scaled, the rest passed
through; "prev_close_price" enables the ch/chp computation). -/
def lite_val : List String := ["ltp", "prev_close_price", "exch_feed_time"]

/-- `FyersFeed.__response_output`: the price-field list
`precision_calcu_value`. -/
def precision_calcu_value : List String :=
  ["ltp", "bid_price", "ask_price", "avg_trade_price", "low_price",
   "high_price", "open_price", "prev_close_price"]

/-- One entry of `self.resp`: the per-topic cached record.  The source
keeps one Python dict mixing the integer fields (keyed by the table
names) with "multiplier", "precision", "exchange", "exchange_token",
"symbol" and "type"; those six keys are disjoint from the field tables,
so they are embedded as separate components. -/
structure CachedRecord where
  fields : List (String × Int)
  multiplier : Nat
  precision : Nat
  exchange : String
  exchange_token : String
  symbol : String
  rtype : String
deriving DecidableEq

/-- `FyersFeed.__response_output` price scaling:
`data_resp[val] / ((10 ** data_resp["precision"]) * data_resp["multiplier"])`.
(Python float division; exact here as `Rat` division.  A zero multiplier
would raise `ZeroDivisionError` in the source; `Rat` division by zero is 0.) -/
def scale (rec : CachedRecord) (v : Int) : Rat :=
  (v : Rat) / ((10 : Rat) ^ rec.precision * (rec.multiplier : Rat))

/-- Python `round(x, d)`: round half to even at `d` decimal digits. -/
def pyRoundAt (x : Rat) (d : Nat) : Rat :=
  ((let y := x * (10 : Rat) ^ d
    let fl : Int := ⌊y⌋
    let frac := y - (fl : Rat)
    if frac < 1 / 2 then fl
    else if (1 : Rat) / 2 < frac then fl + 1
    else if fl % 2 = 0 then fl else fl + 1 : Int) : Rat) / (10 : Rat) ^ d

/-- The "ch"/"chp" block of `__response_output`: when both
"prev_close_price" and "ltp" are in the response (and, with `guardZero`,
the previous close is nonzero as in the scrips branch), add the rounded
change and percent change.  (The index and lite branches have no zero
guard; there a zero previous close raises `ZeroDivisionError` in the
source, while `Rat` division by zero is 0.) -/
def chChp (digits : Nat) (guardZero : Bool) (resp : List (String × Rat)) :
    List (String × Rat) :=
  match aget? resp "prev_close_price", aget? resp "ltp" with
  | some pc, some lt =>
      if guardZero = true ∧ pc = 0 then resp
      else
        let ch := pyRoundAt (lt - pc) digits
        asetK (asetK resp "ch" ch) "chp" (pyRoundAt (ch / pc * 100) digits)
  | _, _ => resp

/-- The scrips loop of `__response_output`: price fields (the
`precision_calcu_value` names, minus the explicitly excluded
"upper_ckt"/"lower_ckt") are scaled, other present fields pass through. -/
def respFoldScrips (rec : CachedRecord) :
    List String → List (String × Rat) → List (String × Rat)
  | [], acc => acc
  | val :: rest, acc =>
      respFoldScrips rec rest
        (match aget? rec.fields val with
         | none => acc
         | some v =>
             if val ∈ precision_calcu_value ∧
                 ¬ val ∈ (["upper_ckt", "lower_ckt"] : List String) then
               asetK acc val (scale rec v)
             else asetK acc val ((v : Rat)))

/-- The depth loop of `__response_output`: entries at enumeration index
below 10 (the ladder prices) are scaled, other present fields pass
through. -/
def respFoldDepth (rec : CachedRecord) :
    Nat → List String → List (String × Rat) → List (String × Rat)
  | _, [], acc => acc
  | i, val :: rest, acc =>
      respFoldDepth rec (i + 1) rest
        (match aget? rec.fields val with
         | none => acc
         | some v =>
             if i < 10 then asetK acc val (scale rec v)
             else asetK acc val ((v : Rat)))

/-- The index loop of `__response_output`: entries at enumeration index
in [0, 1, 3, 4, 5] are scaled, other present fields pass through; the
source's ch/chp block is indented inside this loop and so runs after
every iteration. -/
def respFoldIdx (rec : CachedRecord) :
    Nat → List String → List (String × Rat) → List (String × Rat)
  | _, [], acc => acc
  | i, val :: rest, acc =>
      respFoldIdx rec (i + 1) rest
        (chChp 2 false
          (match aget? rec.fields val with
           | none => acc
           | some v =>
               if i ∈ ([0, 1, 3, 4, 5] : List Nat) then
                 asetK acc val (scale rec v)
               else asetK acc val ((v : Rat))))

/-- The lite-mode loop of `__response_output`: only "ltp" is scaled.
(The source's else-branch reads `data_resp[val]` without a membership
guard and raises `KeyError` when a lite field is absent; absent fields
are skipped here — no claim exercises the lite path.) -/
def respFoldLite (rec : CachedRecord) :
    List String → List (String × Rat) → List (String × Rat)
  | [], acc => acc
  | val :: rest, acc =>
      respFoldLite rec rest
        (match aget? rec.fields val with
         | none => acc
         | some v =>
             if val = "ltp" then asetK acc val (scale rec v)
             else asetK acc val ((v : Rat)))

/-- The scrips branch of `__response_output` after its loop: force
"lower_ckt" and "upper_ckt" to 0, add ch/chp (round 4, guarded by a
nonzero previous close), then pop "OI", "Yhigh" and "Ylow". -/
def responseScrips (rec : CachedRecord) : List (String × Rat) :=
  apop
    (apop
      (apop
        (chChp 4 true
          (asetK (asetK (respFoldScrips rec data_val []) "lower_ckt" 0)
            "upper_ckt" 0))
        "OI")
      "Yhigh")
    "Ylow"

/-- `FyersFeed.__response_output`, dispatching on the lite flag and the
`data_type` argument ("depth", "scrips", anything else being the index
case). -/
def responseOutput (lite : Bool) (rec : CachedRecord) (dataType : String) :
    List (String × Rat) :=
  if (aget? rec.fields "bidPrice1") = none ∧ lite = true then
    chChp 2 false (respFoldLite rec lite_val [])
  else if dataType = "depth" then respFoldDepth rec 0 depth_value []
  else if dataType = "scrips" then responseScrips rec
  else respFoldIdx rec 0 index_val []

/-- The mutable codec state of `FyersFeed` touched by `__datafeed_resp`:
`self.resp` (topic name to cached record), the three topic-id maps, the
`symbol_token` map and the lite flag.  `symbol_token` is read with a
default of "" where the source's `self.symbol_token[topic_name]` would
raise `KeyError` on an unsubscribed topic (outside the modelled runs). -/
structure FyersState where
  resp : List (String × CachedRecord)
  dp_sym : List (Nat × String)
  index_sym : List (Nat × String)
  scrips_sym : List (Nat × String)
  symbol_token : List (String × String)
  lite : Bool
deriving DecidableEq

/-- One decoded snapshot entry (`data_type == 83`) of a datafeed frame:
topic id and name, the signed 32-bit field values in table order, then
the multiplier, precision and the three trailing strings.  The byte-level
`struct.unpack` walk is abstracted; this is its decoded content. -/
structure SnapshotData where
  topicId : Nat
  topicName : String
  fieldValues : List Int
  multiplier : Nat
  precision : Nat
  exchange : String
  exchangeToken : String
  symbolStr : String
deriving DecidableEq

/-- One decoded full-mode update entry (`data_type == 85`) of a datafeed
frame: topic id and the signed 32-bit field values in table order. -/
structure UpdateData where
  topicId : Nat
  fieldValues : List Int
deriving DecidableEq

/-- The snapshot field loop: `if value != -2147483648:
resp[topic][table[index]] = value` for each decoded value in order. -/
def storeFields (tbl : List String) :
    Nat → List Int → List (String × Int) → List (String × Int)
  | _, [], d => d
  | i, v :: vs, d =>
      storeFields tbl (i + 1) vs
        (if v = sentinel then d else asetK d (tbl.getD i "") v)

/-- Build the fresh cached record a snapshot entry installs: the
non-sentinel fields, the multiplier/precision carried by the frame, the
three decoded strings, the topic type tag — and the "symbol" key, which
the source immediately overwrites with `self.symbol_token[topic_name]`. -/
def buildSnapshotRecord (tbl : List String) (f : SnapshotData)
    (tokenSymbol : String) (cls : String) : CachedRecord :=
  { fields := storeFields tbl 0 f.fieldValues []
    multiplier := f.multiplier
    precision := f.precision
    exchange := f.exchange
    exchange_token := f.exchangeToken
    symbol := tokenSymbol
    rtype := cls }

/-- `__datafeed_resp`, snapshot case (`data_type == 83`): dispatch on the
two-character topic-name tag ("dp"/"if"/"sf"), record the topic id,
install the fresh record in `self.resp` and emit `__response_output`
unconditionally. -/
def processSnapshot (st : FyersState) (f : SnapshotData) :
    FyersState × Option (List (String × Rat)) :=
  if f.topicName.take 2 = "dp" then
    let rec0 := buildSnapshotRecord depth_value f
      ((aget? st.symbol_token f.topicName).getD "") "dp"
    ({ st with dp_sym := asetK st.dp_sym f.topicId f.topicName
               resp := asetK st.resp f.topicName rec0 },
     some (responseOutput st.lite rec0 "depth"))
  else if f.topicName.take 2 = "if" then
    let rec0 := buildSnapshotRecord index_val f
      ((aget? st.symbol_token f.topicName).getD "") "if"
    ({ st with index_sym := asetK st.index_sym f.topicId f.topicName
               resp := asetK st.resp f.topicName rec0 },
     some (responseOutput st.lite rec0 "index"))
  else if f.topicName.take 2 = "sf" then
    let rec0 := buildSnapshotRecord data_val f
      ((aget? st.symbol_token f.topicName).getD "") "sf"
    ({ st with scrips_sym := asetK st.scrips_sym f.topicId f.topicName
               resp := asetK st.resp f.topicName rec0 },
     some (responseOutput st.lite rec0 "scrips"))
  else (st, none)

/-- The full-mode update field loop of `__datafeed_resp`.  For each value
in table order: if the field is cached and differs, store it (for scrip
and depth topics additionally guarded by `value != -2147483648`; for
index topics the source instead writes `value != "-2147483648"` — an
`int` compared to a `str`, which in Python is always unequal, hence
`idxCls = true` drops the guard); if the field is not cached, store it
when it is not the sentinel.  The returned flag is `self.update_tick`. -/
def updStep (idxCls : Bool) (tbl : List String) :
    Nat → List Int → List (String × Int) → Bool →
    List (String × Int) × Bool
  | _, [], d, chg => (d, chg)
  | i, v :: vs, d, chg =>
      match aget? d (tbl.getD i "") with
      | some w =>
          if w ≠ v ∧ (idxCls = true ∨ v ≠ sentinel) then
            updStep idxCls tbl (i + 1) vs (asetK d (tbl.getD i "") v) true
          else updStep idxCls tbl (i + 1) vs d chg
      | none =>
          if v ≠ sentinel then
            updStep idxCls tbl (i + 1) vs (asetK d (tbl.getD i "") v) true
          else updStep idxCls tbl (i + 1) vs d chg

/-- `__datafeed_resp`, full-mode update case (`data_type == 85`): resolve
the topic id through `scrips_sym`, then `index_sym`, then `dp_sym` (the
source's if/elif order), merge the values into the cached record, and
emit `__response_output` on the merged record only when some field merge
fired (`self.update_tick`).  A topic id resolving to a name with no
cached record would raise `KeyError` in the source (unreachable after a
snapshot); here it yields no change. -/
def processUpdate (st : FyersState) (u : UpdateData) :
    FyersState × Option (List (String × Rat)) :=
  match aget? st.scrips_sym u.topicId with
  | some nm =>
      match aget? st.resp nm with
      | some rec0 =>
          let m := updStep false data_val 0 u.fieldValues rec0.fields false
          let rec1 := { rec0 with fields := m.1 }
          ({ st with resp := asetK st.resp nm rec1 },
           if m.2 = true then some (responseOutput st.lite rec1 "scrips")
           else none)
      | none => (st, none)
  | none =>
      match aget? st.index_sym u.topicId with
      | some nm =>
          match aget? st.resp nm with
          | some rec0 =>
              let m := updStep true index_val 0 u.fieldValues rec0.fields false
              let rec1 := { rec0 with fields := m.1 }
              ({ st with resp := asetK st.resp nm rec1 },
               if m.2 = true then some (responseOutput st.lite rec1 "index")
               else none)
          | none => (st, none)
      | none =>
          match aget? st.dp_sym u.topicId with
          | some nm =>
              match aget? st.resp nm with
              | some rec0 =>
                  let m :=
                    updStep false depth_value 0 u.fieldValues rec0.fields false
                  let rec1 := { rec0 with fields := m.1 }
                  ({ st with resp := asetK st.resp nm rec1 },
                   if m.2 = true then
                     some (responseOutput st.lite rec1 "depth")
                   else none)
              | none => (st, none)
          | none => (st, none)

/-- Test that an update changes nothing: every value is the sentinel or
equals the cached value of its field (so neither merge branch of
`updStep` fires, for non-index topics). -/
def noEffectB (tbl : List String) :
    Nat → List Int → List (String × Int) → Bool
  | _, [], _ => true
  | i, v :: vs, d =>
      (v == sentinel || aget? d (tbl.getD i "") == some v) &&
        noEffectB tbl (i + 1) vs d

/-- The outcome of one invocation of a retry-wrapped operation, per the
exception classes caught by the two `retry` decorators: normal return,
`aiohttp.ClientResponseError`, `aiohttp.ClientConnectionError` (and, for
`AsyncRequest.retry`, `json.JSONDecodeError`/`ConnectionError`, caught by
the same arm), or any other exception. -/
inductive Outcome
  | success
  | respError
  | connError
  | otherError
deriving DecidableEq

/-- Observable trace of one run of a retry wrapper: how many times the
wrapped operation was invoked, the successive backoff waits, whether
`close`/`close_session` was called, whether the max-retries exit was
taken, and whether an exception escaped uncaught. -/
structure RetryResult where
  invocations : Nat
  waits : List Nat
  closedCalled : Bool
  exhausted : Bool
  propagated : Bool
deriving DecidableEq

/-- `AbstractFeeder.retry`: `while retries < max_retries`, invoke; on
`ClientResponseError` close and return; on `ClientConnectionError` wait
`min(base_wait * 2 ** retries, max_wait)` and increment `retries`; on any
other exception close and return; on loop exit close and warn.  The list
argument supplies the outcome of each successive invocation (an empty
list means the run is observed only up to that point). -/
def retryGoFeeder (maxRetries baseWait maxWait : Nat) :
    Nat → List Outcome → RetryResult
  | retries, [] =>
      if retries < maxRetries then
        { invocations := 0, waits := [], closedCalled := false,
          exhausted := false, propagated := false }
      else
        { invocations := 0, waits := [], closedCalled := true,
          exhausted := true, propagated := false }
  | retries, .success :: _ =>
      if retries < maxRetries then
        { invocations := 1, waits := [], closedCalled := false,
          exhausted := false, propagated := false }
      else
        { invocations := 0, waits := [], closedCalled := true,
          exhausted := true, propagated := false }
  | retries, .respError :: _ =>
      if retries < maxRetries then
        { invocations := 1, waits := [], closedCalled := true,
          exhausted := false, propagated := false }
      else
        { invocations := 0, waits := [], closedCalled := true,
          exhausted := true, propagated := false }
  | retries, .otherError :: _ =>
      if retries < maxRetries then
        { invocations := 1, waits := [], closedCalled := true,
          exhausted := false, propagated := false }
      else
        { invocations := 0, waits := [], closedCalled := true,
          exhausted := true, propagated := false }
  | retries, .connError :: rest =>
      if retries < maxRetries then
        let w := min (baseWait * 2 ^ retries) maxWait
        let r := retryGoFeeder maxRetries baseWait maxWait
          (retries + 1) rest
        { invocations := r.invocations + 1, waits := w :: r.waits,
          closedCalled := r.closedCalled, exhausted := r.exhausted,
          propagated := r.propagated }
      else
        { invocations := 0, waits := [], closedCalled := true,
          exhausted := true, propagated := false }

/-- `AsyncRequest.retry`: same loop shape, but the transient arm catches
`ClientConnectionError`/`JSONDecodeError`/`ConnectionError`, the terminal
arm catches `RuntimeError` (closing the session), any other exception
propagates uncaught, and the max-retries exit only warns (no close). -/
def retryGoRequest (maxRetries baseWait maxWait : Nat) :
    Nat → List Outcome → RetryResult
  | retries, [] =>
      if retries < maxRetries then
        { invocations := 0, waits := [], closedCalled := false,
          exhausted := false, propagated := false }
      else
        { invocations := 0, waits := [], closedCalled := false,
          exhausted := true, propagated := false }
  | retries, .success :: _ =>
      if retries < maxRetries then
        { invocations := 1, waits := [], closedCalled := false,
          exhausted := false, propagated := false }
      else
        { invocations := 0, waits := [], closedCalled := false,
          exhausted := true, propagated := false }
  | retries, .respError :: _ =>
      if retries < maxRetries then
        { invocations := 1, waits := [], closedCalled := true,
          exhausted := false, propagated := false }
      else
        { invocations := 0, waits := [], closedCalled := false,
          exhausted := true, propagated := false }
  | retries, .otherError :: _ =>
      if retries < maxRetries then
        { invocations := 1, waits := [], closedCalled := false,
          exhausted := false, propagated := true }
      else
        { invocations := 0, waits := [], closedCalled := false,
          exhausted := true, propagated := false }
  | retries, .connError :: rest =>
      if retries < maxRetries then
        let w := min (baseWait * 2 ^ retries) maxWait
        let r := retryGoRequest maxRetries baseWait maxWait
          (retries + 1) rest
        { invocations := r.invocations + 1, waits := w :: r.waits,
          closedCalled := r.closedCalled, exhausted := r.exhausted,
          propagated := r.propagated }
      else
        { invocations := 0, waits := [], closedCalled := false,
          exhausted := true, propagated := false }

/-- A Python value used as a dict key: `DhanFeed._disconnect_str_map` has
`str` keys while `_process_disconnect` looks up an `int`; Python equality
between an `int` and a `str` is always false, which the derived equality
of this type reproduces. -/
inductive PyKey
  | pint (n : Int)
  | pstr (s : String)
deriving DecidableEq

/-- `DhanFeed._disconnect_str_map` (string keys, as in the source). -/
def disconnect_str_map : List (PyKey × String) :=
  [(.pstr "805", "Disconnected: No. of active websocket connections exceeded"),
   (.pstr "806", "Disconnected: Subscribe to Data APIs to continue"),
   (.pstr "807", "Disconnected: Access Token is expired"),
   (.pstr "808", "Disconnected: Invalid Client ID"),
   (.pstr "809", "Disconnected: Authentication Failed - check")]

/-- What `DhanFeed._process_disconnect` does with a frame: nothing but,
at most, a log line. -/
structure DisconnectEffect where
  logged : Option String
  closeCalled : Bool
deriving DecidableEq

/-- `DhanFeed._process_disconnect`: unpack the disconnect code (an `int`)
and log the mapped message `if code in self._disconnect_str_map`.  No
close, no error callback, no state change — and the membership test
compares the `int` code against `str` keys. -/
def processDisconnect (code : Int) : DisconnectEffect :=
  { logged := aget? disconnect_str_map (.pint code), closeCalled := false }

/-- The connection/session state read and written by the `close` methods:
whether `self.ws` exists and is closed, the connected flag, whether the
`aiohttp.ClientSession` was injected by the caller
(`self._shared_session`), and whether it is closed. -/
structure SessState where
  hasWs : Bool
  wsClosed : Bool
  connected : Bool
  sharedSession : Bool
  sessionClosed : Bool
deriving DecidableEq

/-- The state after a `close` call plus which close operations it
performed. -/
structure CloseEffect where
  st : SessState
  wsCloseCalled : Bool
  sessionCloseCalled : Bool
deriving DecidableEq

/-- `FyersFeed.close` (and, with identical structure, `DhanFeed.close`):
close the websocket `if self.connected and hasattr(self, "ws") and not
self.ws.closed`, set `connected = False`, return early when the session
was injected, else close the session if open. -/
def fyersClose (s : SessState) : CloseEffect :=
  let doWs := s.connected && s.hasWs && !s.wsClosed
  let s1 : SessState :=
    { s with wsClosed := s.wsClosed || doWs, connected := false }
  if s.sharedSession then
    { st := s1, wsCloseCalled := doWs, sessionCloseCalled := false }
  else
    let doSess := !s.sessionClosed
    { st := { s1 with sessionClosed := s.sessionClosed || doSess },
      wsCloseCalled := doWs, sessionCloseCalled := doSess }

/-- `KiteFeed.close`: close the websocket `if hasattr(self, "ws")` and
`not self.ws.closed` (the pending-unsubscribe step is dead code: it tests
the class attribute `self.subscribed`, an always-empty dict), set
`connected = False`, return early when the session was injected, else
close the session if open. -/
def kiteClose (s : SessState) : CloseEffect :=
  let doWs := s.hasWs && !s.wsClosed
  let s1 : SessState :=
    { s with wsClosed := s.wsClosed || doWs, connected := false }
  if s.sharedSession then
    { st := s1, wsCloseCalled := doWs, sessionCloseCalled := false }
  else
    let doSess := !s.sessionClosed
    { st := { s1 with sessionClosed := s.sessionClosed || doSess },
      wsCloseCalled := doWs, sessionCloseCalled := doSess }

/-- `KiteFeed.subscribe` effect on `self.subscribed_tokens` (after the
subscribe frame is sent): `self.subscribed_tokens[token] =
self.MODE_QUOTE` for each token. -/
def kiteSubscribe (subs : List (Nat × String)) (tokens : List Nat) :
    List (Nat × String) :=
  tokens.foldl (fun d t => asetK d t "quote") subs

/-- `KiteFeed.set_mode` effect on `self.subscribed_tokens` (after the
mode frame is sent): `self.subscribed_tokens[token] = mode` for each
token. -/
def kiteSetMode (subs : List (Nat × String)) (mode : String)
    (tokens : List Nat) : List (Nat × String) :=
  tokens.foldl (fun d t => asetK d t mode) subs

/-- `KiteFeed.unsubscribe` effect on `self.subscribed_tokens` (after the
unsubscribe frame is sent): `self.subscribed_tokens.pop(token)` for each
token — a no-default `dict.pop`, which raises `KeyError` when the token
is not a key. -/
def kiteUnsubscribe :
    List (Nat × String) → List Nat → Except String (List (Nat × String))
  | d, [] => Except.ok d
  | d, t :: ts =>
      match aget? d t with
      | some _ => kiteUnsubscribe (apop d t) ts
      | none => Except.error "KeyError"

/-- A Dhan subscription tuple: `(exchange_segment, security_id)` or
`(exchange_segment, security_id, subscription_type)`. -/
inductive DTuple
  | two (ex : Nat) (id : String)
  | three (ex : Nat) (id : String) (mode : Nat)
deriving DecidableEq

/-- The Python `len(tup)` of a subscription tuple. -/
def arity : DTuple → Nat
  | .two _ _ => 2
  | .three _ _ _ => 3

/-- `DhanFeed._validate_and_process_tuples`, tuple normalization:
`(*tup, 15)` for a 2-tuple (the default Ticker mode), the tuple itself
otherwise. -/
def normalizeTup : DTuple → Nat × String × Nat
  | .two ex id => (ex, id, 15)
  | .three ex id m => (ex, id, m)

/-- The mode-validation walk of `_validate_and_process_tuples`: raise
`ValueError` at the first tuple whose mode is not in `(15, 17, 21)`
(`Depth = 19` included). -/
def checkModes : List (Nat × String × Nat) → Except String Unit
  | [] => Except.ok ()
  | t :: rest =>
      if t.2.2 ∈ ([15, 17, 21] : List Nat) then checkModes rest
      else
        Except.error
          "Invalid request mode for v2. Only Ticker, Quote and Full packet are allowed."

/-- Chunking a list into batches of `n` (the source's slice loop),
driven by an explicit fuel so the recursion is structural. -/
def chunksF {α : Type} (n : Nat) : Nat → List α → List (List α)
  | 0, _ => []
  | _, [] => []
  | fuel + 1, l => l.take n :: chunksF n fuel (l.drop n)

/-- Batches of at most `n` elements. -/
def chunks {α : Type} (n : Nat) (l : List α) : List (List α) :=
  chunksF n l.length l

/-- The `(exchange, security_id)` pairs of one mode group, in processed
order (the source appends to `batches[_type]` as it walks). -/
def modeGroup (l : List (Nat × String × Nat)) (m : Nat) :
    List (Nat × String) :=
  (l.filter (fun t => t.2.2 == m)).map (fun t => (t.1, t.2.1))

/-- `DhanFeed._validate_and_process_tuples`: reject mixed arities, assign
the default mode 15 to 2-tuples, deduplicate (the source builds a Python
set), validate every mode against `(15, 17, 21)`, then return the
per-mode batches of at most `batchSize` instruments for the mode keys
`(15, 17, 19, 21)`. -/
def validateAndProcessTuples (tuples : List DTuple) (batchSize : Nat) :
    Except String (List (Nat × List (List (Nat × String)))) :=
  if ((tuples.map arity).dedup).length > 1 then
    Except.error "All tuples must be of same size, either all 2 or all 3."
  else
    let processed := (tuples.map normalizeTup).dedup
    match checkModes processed with
    | Except.error e => Except.error e
    | Except.ok _ =>
        Except.ok
          (([15, 17, 19, 21] : List Nat).map
            (fun m => (m, chunks batchSize (modeGroup processed m))))

/-- `DhanFeed.exchange_map`. -/
def exchange_map : List (Nat × String) :=
  [(0, "IDX_I"), (1, "NSE_EQ"), (2, "NSE_FNO"), (3, "NSE_CURRENCY"),
   (4, "BSE_EQ"), (5, "MCX_COMM"), (7, "BSE_CURRENCY"), (8, "BSE_FNO")]

/-- One outbound Dhan control message: `RequestCode`, `InstrumentCount`
and the `(ExchangeSegment, SecurityId)` instrument list. -/
structure DhanMessage where
  requestCode : Nat
  instrumentCount : Nat
  instruments : List (String × String)
deriving DecidableEq

/-- The control frames `DhanFeed.subscribe` builds from the validated
batches (one message per batch).  An exchange id missing from
`exchange_map` would raise `KeyError` in the source; it maps to ""
here. -/
def dhanFrames (batches : List (Nat × List (List (Nat × String)))) :
    List DhanMessage :=
  batches.flatMap (fun p =>
    p.2.map (fun g =>
      { requestCode := p.1, instrumentCount := g.length
        instruments :=
          g.map (fun q => ((aget? exchange_map q.1).getD "", q.2)) }))

/-- `DhanFeed.subscribe`: `self.subscribed = symbols` (before any
validation), then validate-and-batch; the `ValueError` of
`_validate_and_process_tuples` propagates before any `ws.send_json`, so
an error result carries no frames. -/
def dhanSubscribe (symbols : List DTuple) :
    List DTuple × Except String (List DhanMessage) :=
  (symbols, (validateAndProcessTuples symbols 100).map dhanFrames)

/-- `DhanFeed.unsubscribe_symbols` effect on `self.subscribed`:
`list(set(self.subscribed).difference(symbols))` — embedded by its
membership semantics as deduplication plus removal of the requested
tuples. -/
def dhanUnsubscribeTracked (subscribed symbols : List DTuple) :
    List DTuple :=
  (subscribed.dedup).filter (fun t => decide (¬ t ∈ symbols))

/-- The error record passed to `on_error` (`{code, message}`). -/
structure FeedError where
  code : Int
  message : String
deriving DecidableEq

/-- `LIMIT_EXCEED_CODE` / `LIMIT_EXCEED_MSG_5000` of `FyersFeed`. -/
def limitExceedError : FeedError :=
  { code := -99, message := "Please provide less than 5000 symbols" }

/-- The `FyersFeed` subscription-tracking state touched by `subscribe`:
`self.symbol_token`, `self.scrips_count`, `self.scrips_per_channel`, and
the channel bookkeeping of `__channel_resume_pause`. -/
structure FySubState where
  symbolTok : List (String × String)
  scripsCount : List (Nat × List String)
  scripsPerChannel : List (Nat × List String)
  runningChannels : List Nat
  activeChannel : Option Nat
deriving DecidableEq

/-- `self.scrips_per_channel[channel]` (every channel is pre-seeded with
`[]` in `__init__`). -/
def spcGet (st : FySubState) (ch : Nat) : List String :=
  (aget? st.scripsPerChannel ch).getD []

/-- `FyersFeed.__channel_resume_pause` state effect: add the channel to
`running_channels` and make it active.  (Its pause/resume sends are
guarded by `self.ws.closed` and are not subscribe frames; they are not
modelled.) -/
def channelResumePause (st : FySubState) (ch : Nat) : FySubState :=
  { st with
    runningChannels :=
      if ch ∈ st.runningChannels then st.runningChannels
      else st.runningChannels ++ [ch]
    activeChannel := some ch }

/-- The up-front limit test of `FyersFeed.__symbol_conversion` (Python
precedence: `a or (b and c)`), against `self.symbol_limit = 5000`. -/
def symbolConversionLimit (st : FySubState) (ch : Nat)
    (totalSymbols : Nat) : Bool :=
  decide (5000 < (spcGet st ch).length) ||
    (decide (5000 < totalSymbols) &&
      decide (5000 < (spcGet st ch).length + totalSymbols))

/-- Python `dict.update`. -/
def dictUpdate (d e : List (String × String)) : List (String × String) :=
  e.foldl (fun acc p => asetK acc p.1 p.2) d

/-- `FyersFeed.subscribe` for an already-resolved request.  `resolved` is
the `{hsm_token: symbol}` dict `__symbol_conversion` would return for the
request and `rawCount` the raw symbol-list length its up-front limit test
uses (the network resolution itself, and its invalid-symbol reporting,
are outside this model).  Steps, in source order: channel bookkeeping;
the conversion limit test (reject with the capacity error); the
`len(self.symbol_token) + len(self.channel_symbol) > 5000` ceiling
(reject with the capacity error); else merge `symbol_token`, set
`scrips_count[channel]`, and send one subscribe frame per 1500-symbol
chunk (each chunk is also appended to `scrips_per_channel[channel]` by
`__subscription_msg`). -/
def fyersSubscribe (st : FySubState) (ch : Nat)
    (resolved : List (String × String)) (rawCount : Nat) :
    FySubState × List (List String) × List FeedError :=
  let st1 := channelResumePause st ch
  if symbolConversionLimit st1 ch rawCount then
    (st1, [], [limitExceedError])
  else if 5000 < st1.symbolTok.length + resolved.length then
    (st1, [], [limitExceedError])
  else
    let keys := resolved.map Prod.fst
    let st2 : FySubState :=
      { st1 with symbolTok := dictUpdate st1.symbolTok resolved,
                 scripsCount := asetK st1.scripsCount ch keys }
    let st3 : FySubState :=
      { st2 with
        scripsPerChannel :=
          asetK st2.scripsPerChannel ch (spcGet st2 ch ++ keys) }
    (st3, chunks 1500 keys, [])

/-- A concrete index-topic cached record, as left by a snapshot frame:
only "ltp" cached (value 100), multiplier 1, precision 2. -/
def c1Record : CachedRecord :=
  { fields := [("ltp", 100)], multiplier := 1, precision := 2,
    exchange := "NSE", exchange_token := "99926000",
    symbol := "NSE:NIFTY50-INDEX", rtype := "if" }

/-- Feed state with the index topic "if|1|99926000" bound to topic id 7
and `c1Record` cached for it. -/
def c1State : FyersState :=
  { resp := [("if|1|99926000", c1Record)], dp_sym := [],
    index_sym := [(7, "if|1|99926000")], scrips_sym := [],
    symbol_token := [("if|1|99926000", "NSE:NIFTY50-INDEX")], lite := false }

/-- A full-mode update for topic 7 whose only field value is the
sentinel. -/
def c1Update : UpdateData := { topicId := 7, fieldValues := [-2147483648] }

/-- A concrete scrip-topic cached record: "ltp" 250000 and
"vol_traded_today" 5 cached, multiplier 1, precision 2. -/
def c2Record : CachedRecord :=
  { fields := [("ltp", 250000), ("vol_traded_today", 5)],
    multiplier := 1, precision := 2, exchange := "NSE",
    exchange_token := "1333", symbol := "NSE:SBIN-EQ", rtype := "sf" }

/-- Feed state with the scrip topic "sf|nse_cm|1333" bound to topic id 9
and `c2Record` cached for it. -/
def c2State : FyersState :=
  { resp := [("sf|nse_cm|1333", c2Record)], dp_sym := [], index_sym := [],
    scrips_sym := [(9, "sf|nse_cm|1333")],
    symbol_token := [("sf|nse_cm|1333", "NSE:SBIN-EQ")], lite := false }

/-- A full-mode update for topic 9 changing only "ltp" (250000 to
260000); "vol_traded_today" carries its unchanged cached value 5. -/
def c2Update : UpdateData := { topicId := 9, fieldValues := [260000, 5] }

/-- A concrete depth-topic cached record: "bidPrice1" 100 cached,
multiplier 1, precision 2. -/
def c2DepthRecord : CachedRecord :=
  { fields := [("bidPrice1", 100)], multiplier := 1, precision := 2,
    exchange := "NSE", exchange_token := "1333", symbol := "NSE:SBIN-EQ",
    rtype := "dp" }

/-- Feed state with the depth topic "dp|nse_cm|1333" bound to topic id 3
and `c2DepthRecord` cached for it. -/
def c2DepthState : FyersState :=
  { resp := [("dp|nse_cm|1333", c2DepthRecord)],
    dp_sym := [(3, "dp|nse_cm|1333")], index_sym := [], scrips_sym := [],
    symbol_token := [("dp|nse_cm|1333", "NSE:SBIN-EQ")], lite := false }

/-- A concrete scrip-topic cached record holding the non-price fields
"OI" (42) and "lower_ckt" (240000) beside "ltp". -/
def c3Record : CachedRecord :=
  { fields := [("ltp", 250000), ("OI", 42), ("lower_ckt", 240000)],
    multiplier := 1, precision := 2, exchange := "NSE",
    exchange_token := "1333", symbol := "NSE:SBIN-EQ", rtype := "sf" }

theorem aget?_asetK_self {κ α : Type} [DecidableEq κ] (d : List (κ × α))
    (k : κ) (v : α) : aget? (asetK d k v) k = some v := by
  induction d with
  | nil => simp [asetK, aget?]
  | cons p rest ih =>
      obtain ⟨k0, w⟩ := p
      by_cases h : k = k0
      · simp [asetK, aget?, h]
      · simp [asetK, aget?, h, ih]

theorem aget?_asetK_ne {κ α : Type} [DecidableEq κ] (d : List (κ × α))
    (k k' : κ) (v : α) (h : k' ≠ k) :
    aget? (asetK d k v) k' = aget? d k' := by
  induction d with
  | nil => simp [asetK, aget?, h]
  | cons p rest ih =>
      obtain ⟨k0, w⟩ := p
      by_cases hk : k = k0
      · subst hk
        simp [asetK, aget?, h]
      · by_cases hk' : k' = k0
        · simp [asetK, aget?, hk, hk']
        · simp [asetK, aget?, hk, hk', ih]

theorem asetK_eq_self {κ α : Type} [DecidableEq κ] (d : List (κ × α))
    (k : κ) (v : α) (h : aget? d k = some v) : asetK d k v = d := by
  induction d with
  | nil => simp [aget?] at h
  | cons p rest ih =>
      obtain ⟨k0, w⟩ := p
      by_cases hk : k = k0
      · subst hk
        simp [aget?] at h
        simp [asetK, h]
      · simp [aget?, hk] at h
        simp [asetK, hk, ih h]

theorem aget?_apop_ne {κ α : Type} [DecidableEq κ] (d : List (κ × α))
    (k k' : κ) (h : k' ≠ k) : aget? (apop d k) k' = aget? d k' := by
  induction d with
  | nil => simp [apop]
  | cons p rest ih =>
      obtain ⟨k0, w⟩ := p
      by_cases hk : k = k0
      · subst hk
        simp [apop, aget?, h]
      · by_cases hk' : k' = k0
        · simp [apop, aget?, hk, hk']
        · simp [apop, aget?, hk, hk', ih]

theorem akeys_nil {κ α : Type} : akeys ([] : List (κ × α)) = [] := rfl

theorem akeys_cons {κ α : Type} (k0 : κ) (w : α) (rest : List (κ × α)) :
    akeys ((k0, w) :: rest) = k0 :: akeys rest := rfl

theorem aget?_eq_none_of_not_mem_akeys {κ α : Type} [DecidableEq κ]
    (d : List (κ × α)) (k : κ) (h : ¬ k ∈ akeys d) : aget? d k = none := by
  induction d with
  | nil => simp [aget?]
  | cons p rest ih =>
      obtain ⟨k0, w⟩ := p
      rw [akeys_cons] at h
      simp only [List.mem_cons, not_or] at h
      simp [aget?, h.1, ih h.2]

theorem not_mem_akeys_of_aget?_eq_none {κ α : Type} [DecidableEq κ]
    (d : List (κ × α)) (k : κ) (h : aget? d k = none) : ¬ k ∈ akeys d := by
  induction d with
  | nil => simp [akeys_nil]
  | cons p rest ih =>
      obtain ⟨k0, w⟩ := p
      by_cases hk : k = k0
      · simp [aget?, hk] at h
      · simp only [aget?, hk, if_false] at h
        rw [akeys_cons]
        simp only [List.mem_cons, not_or]
        exact ⟨hk, ih h⟩

theorem aget?_apop_self_of_nodup {κ α : Type} [DecidableEq κ]
    (d : List (κ × α)) (k : κ) (h : (akeys d).Nodup) :
    aget? (apop d k) k = none := by
  induction d with
  | nil => simp [apop, aget?]
  | cons p rest ih =>
      obtain ⟨k0, w⟩ := p
      rw [akeys_cons, List.nodup_cons] at h
      by_cases hk : k = k0
      · rw [apop, if_pos hk, hk]
        exact aget?_eq_none_of_not_mem_akeys rest k0 h.1
      · rw [apop, if_neg hk, aget?, if_neg hk]
        exact ih h.2

theorem akeys_asetK {κ α : Type} [DecidableEq κ] (d : List (κ × α))
    (k : κ) (v : α) :
    akeys (asetK d k v) = if k ∈ akeys d then akeys d else akeys d ++ [k] := by
  induction d with
  | nil => simp [asetK, akeys]
  | cons p rest ih =>
      obtain ⟨k0, w⟩ := p
      by_cases hk : k = k0
      · subst hk
        simp [asetK, akeys_cons]
      · rw [asetK, if_neg hk, akeys_cons, akeys_cons, ih]
        by_cases hm : k ∈ akeys rest
        · simp [hm, hk]
        · simp [hm, hk]

theorem akeys_asetK_nodup {κ α : Type} [DecidableEq κ] (d : List (κ × α))
    (k : κ) (v : α) (h : (akeys d).Nodup) : (akeys (asetK d k v)).Nodup := by
  rw [akeys_asetK]
  by_cases hm : k ∈ akeys d
  · simpa [hm] using h
  · simp only [hm, if_false]
    rw [List.nodup_append]
    refine ⟨h, List.nodup_singleton k, ?_⟩
    intro a ha
    simp only [List.mem_singleton]
    intro hak
    exact hm (hak ▸ ha)

theorem aget?_apop_of_none {κ α : Type} [DecidableEq κ] (d : List (κ × α))
    (k t : κ) (h : aget? d t = none) : aget? (apop d k) t = none := by
  induction d with
  | nil => simp [apop, aget?]
  | cons p rest ih =>
      obtain ⟨k0, w⟩ := p
      by_cases ht : t = k0
      · simp [aget?, ht] at h
      · simp only [aget?, ht, if_false] at h
        by_cases hk : k = k0
        · rw [apop, if_pos hk]
          exact h
        · rw [apop, if_neg hk, aget?, if_neg ht]
          exact ih h

theorem aget?_chChp_ne (digits : Nat) (guardZero : Bool)
    (resp : List (String × Rat)) (k : String)
    (h1 : k ≠ "ch") (h2 : k ≠ "chp") :
    aget? (chChp digits guardZero resp) k = aget? resp k := by
  rw [chChp]
  split
  · split
    · rfl
    · simp only [aget?_asetK_ne _ _ _ _ h2, aget?_asetK_ne _ _ _ _ h1]
  · rfl

theorem chChp_nodup (digits : Nat) (guardZero : Bool)
    (resp : List (String × Rat)) (h : (akeys resp).Nodup) :
    (akeys (chChp digits guardZero resp)).Nodup := by
  rw [chChp]
  split
  · split
    · exact h
    · exact akeys_asetK_nodup _ _ _ (akeys_asetK_nodup _ _ _ h)
  · exact h

theorem respFoldScrips_not_mem (rec : CachedRecord) (tbl : List String)
    (k : String) (hk : ¬ k ∈ tbl) :
    ∀ acc, aget? (respFoldScrips rec tbl acc) k = aget? acc k := by
  induction tbl with
  | nil => intro acc; rfl
  | cons val rest ih =>
      intro acc
      rw [List.mem_cons, not_or] at hk
      rw [respFoldScrips, ih hk.2]
      split
      · rfl
      · split
        · exact aget?_asetK_ne _ _ _ _ hk.1
        · exact aget?_asetK_ne _ _ _ _ hk.1

theorem respFoldScrips_mem (rec : CachedRecord) (tbl : List String)
    (k : String) (v : Int) (hnd : tbl.Nodup) (hk : k ∈ tbl)
    (hv : aget? rec.fields k = some v) :
    ∀ acc, aget? (respFoldScrips rec tbl acc) k =
      some (if k ∈ precision_calcu_value ∧
              ¬ k ∈ (["upper_ckt", "lower_ckt"] : List String) then
              scale rec v
            else ((v : Rat))) := by
  induction tbl with
  | nil => cases hk
  | cons val rest ih =>
      intro acc
      rw [List.nodup_cons] at hnd
      rcases List.mem_cons.mp hk with hkv | hkr
      · subst hkv
        rw [respFoldScrips, respFoldScrips_not_mem rec rest k hnd.1]
        simp only [hv]
        split
        · rw [aget?_asetK_self]
        · rw [aget?_asetK_self]
      · rw [respFoldScrips]
        split
        · exact ih hnd.2 hkr _
        · split
          · exact ih hnd.2 hkr _
          · exact ih hnd.2 hkr _

theorem respFoldScrips_nodup (rec : CachedRecord) (tbl : List String) :
    ∀ acc, (akeys acc).Nodup →
      (akeys (respFoldScrips rec tbl acc)).Nodup := by
  induction tbl with
  | nil => intro acc h; exact h
  | cons val rest ih =>
      intro acc h
      rw [respFoldScrips]
      split
      · exact ih acc h
      · split
        · exact ih _ (akeys_asetK_nodup _ _ _ h)
        · exact ih _ (akeys_asetK_nodup _ _ _ h)

theorem respFoldDepth_not_mem (rec : CachedRecord) (tbl : List String)
    (k : String) (hk : ¬ k ∈ tbl) :
    ∀ i acc, aget? (respFoldDepth rec i tbl acc) k = aget? acc k := by
  induction tbl with
  | nil => intro i acc; rfl
  | cons val rest ih =>
      intro i acc
      rw [List.mem_cons, not_or] at hk
      rw [respFoldDepth, ih hk.2]
      split
      · rfl
      · split
        · exact aget?_asetK_ne _ _ _ _ hk.1
        · exact aget?_asetK_ne _ _ _ _ hk.1

theorem respFoldDepth_mem (rec : CachedRecord) (tbl : List String)
    (hnd : tbl.Nodup) :
    ∀ j k v i acc, tbl[j]? = some k → aget? rec.fields k = some v →
      aget? (respFoldDepth rec i tbl acc) k =
        some (if i + j < 10 then scale rec v else ((v : Rat))) := by
  induction tbl with
  | nil =>
      intro j k v i acc hj
      simp at hj
  | cons val rest ih =>
      intro j k v i acc hj hv
      rw [List.nodup_cons] at hnd
      cases j with
      | zero =>
          rw [List.getElem?_cons_zero, Option.some_inj] at hj
          subst hj
          rw [respFoldDepth, respFoldDepth_not_mem rec rest val hnd.1]
          simp only [hv, Nat.add_zero]
          split
          · rw [aget?_asetK_self]
          · rw [aget?_asetK_self]
      | succ j1 =>
          rw [List.getElem?_cons_succ] at hj
          rw [respFoldDepth]
          have harith : i + 1 + j1 = i + (j1 + 1) := by omega
          split
          · rw [ih hnd.2 j1 k v (i + 1) _ hj hv, harith]
          · split
            · rw [ih hnd.2 j1 k v (i + 1) _ hj hv, harith]
            · rw [ih hnd.2 j1 k v (i + 1) _ hj hv, harith]

theorem respFoldIdx_not_mem (rec : CachedRecord) (tbl : List String)
    (k : String) (hk : ¬ k ∈ tbl) (hch : k ≠ "ch") (hchp : k ≠ "chp") :
    ∀ i acc, aget? (respFoldIdx rec i tbl acc) k = aget? acc k := by
  induction tbl with
  | nil => intro i acc; rfl
  | cons val rest ih =>
      intro i acc
      rw [List.mem_cons, not_or] at hk
      rw [respFoldIdx, ih hk.2, aget?_chChp_ne _ _ _ _ hch hchp]
      split
      · rfl
      · split
        · exact aget?_asetK_ne _ _ _ _ hk.1
        · exact aget?_asetK_ne _ _ _ _ hk.1

theorem respFoldIdx_mem (rec : CachedRecord) (tbl : List String)
    (hnd : tbl.Nodup) :
    ∀ j k v i acc, tbl[j]? = some k → aget? rec.fields k = some v →
      k ≠ "ch" → k ≠ "chp" →
      aget? (respFoldIdx rec i tbl acc) k =
        some (if i + j ∈ ([0, 1, 3, 4, 5] : List Nat) then scale rec v
              else ((v : Rat))) := by
  induction tbl with
  | nil =>
      intro j k v i acc hj
      simp at hj
  | cons val rest ih =>
      intro j k v i acc hj hv hch hchp
      rw [List.nodup_cons] at hnd
      cases j with
      | zero =>
          rw [List.getElem?_cons_zero, Option.some_inj] at hj
          subst hj
          rw [respFoldIdx, respFoldIdx_not_mem rec rest val hnd.1 hch hchp,
            aget?_chChp_ne _ _ _ _ hch hchp]
          simp only [hv, Nat.add_zero]
          split
          · rw [aget?_asetK_self]
          · rw [aget?_asetK_self]
      | succ j1 =>
          rw [List.getElem?_cons_succ] at hj
          rw [respFoldIdx]
          have harith : i + 1 + j1 = i + (j1 + 1) := by omega
          split
          · rw [ih hnd.2 j1 k v (i + 1) _ hj hv hch hchp, harith]
          · split
            · rw [ih hnd.2 j1 k v (i + 1) _ hj hv hch hchp, harith]
            · rw [ih hnd.2 j1 k v (i + 1) _ hj hv hch hchp, harith]

theorem akeys_apop_subset {κ α : Type} [DecidableEq κ] (d : List (κ × α))
    (k a : κ) (h : a ∈ akeys (apop d k)) : a ∈ akeys d := by
  induction d with
  | nil => simpa [apop] using h
  | cons p rest ih =>
      obtain ⟨k0, w⟩ := p
      by_cases hk : k = k0
      · rw [apop, if_pos hk] at h
        rw [akeys_cons]
        exact List.mem_cons_of_mem _ h
      · rw [apop, if_neg hk, akeys_cons] at h
        rw [akeys_cons]
        rcases List.mem_cons.mp h with h0 | h1
        · exact List.mem_cons.mpr (Or.inl h0)
        · exact List.mem_cons.mpr (Or.inr (ih h1))

theorem akeys_apop_nodup {κ α : Type} [DecidableEq κ] (d : List (κ × α))
    (k : κ) (h : (akeys d).Nodup) : (akeys (apop d k)).Nodup := by
  induction d with
  | nil => simpa [apop] using h
  | cons p rest ih =>
      obtain ⟨k0, w⟩ := p
      rw [akeys_cons, List.nodup_cons] at h
      by_cases hk : k = k0
      · rw [apop, if_pos hk]
        exact h.2
      · rw [apop, if_neg hk, akeys_cons, List.nodup_cons]
        exact ⟨fun hm => h.1 (akeys_apop_subset rest k k0 hm), ih h.2⟩

theorem responseScrips_nodup (rec : CachedRecord) :
    (akeys (responseScrips rec)).Nodup := by
  rw [responseScrips]
  refine akeys_apop_nodup _ _ (akeys_apop_nodup _ _ (akeys_apop_nodup _ _
    (chChp_nodup _ _ _ (akeys_asetK_nodup _ _ _ (akeys_asetK_nodup _ _ _
      (respFoldScrips_nodup rec data_val [] ?_))))))
  exact List.nodup_nil

theorem responseScrips_price (rec : CachedRecord) (k : String) (v : Int)
    (hk : k ∈ precision_calcu_value) (hv : aget? rec.fields k = some v) :
    aget? (responseScrips rec) k = some (scale rec v) := by
  have hYlow : k ≠ "Ylow" := ne_of_mem_of_not_mem hk (by decide)
  have hYhigh : k ≠ "Yhigh" := ne_of_mem_of_not_mem hk (by decide)
  have hOI : k ≠ "OI" := ne_of_mem_of_not_mem hk (by decide)
  have hch : k ≠ "ch" := ne_of_mem_of_not_mem hk (by decide)
  have hchp : k ≠ "chp" := ne_of_mem_of_not_mem hk (by decide)
  have hup : k ≠ "upper_ckt" := ne_of_mem_of_not_mem hk (by decide)
  have hlo : k ≠ "lower_ckt" := ne_of_mem_of_not_mem hk (by decide)
  have hmem : k ∈ data_val := by fin_cases hk <;> decide
  rw [responseScrips, aget?_apop_ne _ _ _ hYlow, aget?_apop_ne _ _ _ hYhigh,
    aget?_apop_ne _ _ _ hOI, aget?_chChp_ne _ _ _ _ hch hchp,
    aget?_asetK_ne _ _ _ _ hup, aget?_asetK_ne _ _ _ _ hlo,
    respFoldScrips_mem rec data_val k v (by decide) hmem hv [],
    if_pos ⟨hk, by simp [hup, hlo]⟩]

theorem responseScrips_passthrough (rec : CachedRecord) (k : String)
    (v : Int) (hk1 : k ∈ data_val) (hk2 : ¬ k ∈ precision_calcu_value)
    (hk3 : ¬ k ∈ (["lower_ckt", "upper_ckt", "OI", "Yhigh", "Ylow"] :
      List String)) (hv : aget? rec.fields k = some v) :
    aget? (responseScrips rec) k = some ((v : Rat)) := by
  have hch : k ≠ "ch" := ne_of_mem_of_not_mem hk1 (by decide)
  have hchp : k ≠ "chp" := ne_of_mem_of_not_mem hk1 (by decide)
  have hYlow : k ≠ "Ylow" := by
    intro h
    exact hk3 (by rw [h]; decide)
  have hYhigh : k ≠ "Yhigh" := by
    intro h
    exact hk3 (by rw [h]; decide)
  have hOI : k ≠ "OI" := by
    intro h
    exact hk3 (by rw [h]; decide)
  have hup : k ≠ "upper_ckt" := by
    intro h
    exact hk3 (by rw [h]; decide)
  have hlo : k ≠ "lower_ckt" := by
    intro h
    exact hk3 (by rw [h]; decide)
  rw [responseScrips, aget?_apop_ne _ _ _ hYlow, aget?_apop_ne _ _ _ hYhigh,
    aget?_apop_ne _ _ _ hOI, aget?_chChp_ne _ _ _ _ hch hchp,
    aget?_asetK_ne _ _ _ _ hup, aget?_asetK_ne _ _ _ _ hlo,
    respFoldScrips_mem rec data_val k v (by decide) hk1 hv [],
    if_neg (fun hcon => hk2 hcon.1)]

theorem responseScrips_ckt (rec : CachedRecord) :
    aget? (responseScrips rec) "lower_ckt" = some 0 ∧
      aget? (responseScrips rec) "upper_ckt" = some 0 := by
  constructor
  · rw [responseScrips, aget?_apop_ne _ _ _ (by decide),
      aget?_apop_ne _ _ _ (by decide), aget?_apop_ne _ _ _ (by decide),
      aget?_chChp_ne _ _ _ _ (by decide) (by decide),
      aget?_asetK_ne _ _ _ _ (by decide), aget?_asetK_self]
  · rw [responseScrips, aget?_apop_ne _ _ _ (by decide),
      aget?_apop_ne _ _ _ (by decide), aget?_apop_ne _ _ _ (by decide),
      aget?_chChp_ne _ _ _ _ (by decide) (by decide), aget?_asetK_self]

theorem responseScrips_dropped (rec : CachedRecord) :
    aget? (responseScrips rec) "OI" = none ∧
      aget? (responseScrips rec) "Yhigh" = none ∧
      aget? (responseScrips rec) "Ylow" = none := by
  have hnodup0 : (akeys (chChp 4 true
      (asetK (asetK (respFoldScrips rec data_val []) "lower_ckt" 0)
        "upper_ckt" 0))).Nodup :=
    chChp_nodup _ _ _ (akeys_asetK_nodup _ _ _ (akeys_asetK_nodup _ _ _
      (respFoldScrips_nodup rec data_val [] List.nodup_nil)))
  refine ⟨?_, ?_, ?_⟩
  · rw [responseScrips, aget?_apop_ne _ _ _ (by decide),
      aget?_apop_ne _ _ _ (by decide)]
    exact aget?_apop_self_of_nodup _ _ hnodup0
  · rw [responseScrips, aget?_apop_ne _ _ _ (by decide)]
    exact aget?_apop_self_of_nodup _ _ (akeys_apop_nodup _ _ hnodup0)
  · rw [responseScrips]
    exact aget?_apop_self_of_nodup _ _
      (akeys_apop_nodup _ _ (akeys_apop_nodup _ _ hnodup0))

theorem updStep_noEffect (tbl : List String) :
    ∀ vs i d chg, noEffectB tbl i vs d = true →
      updStep false tbl i vs d chg = (d, chg) := by
  intro vs
  induction vs with
  | nil => intro i d chg h; rfl
  | cons v rest ih =>
      intro i d chg h
      rw [noEffectB, Bool.and_eq_true, Bool.or_eq_true, beq_iff_eq,
        beq_iff_eq] at h
      obtain ⟨h1, h2⟩ := h
      rw [updStep]
      split
      · rename_i w heq
        split
        · rename_i hcond
          exfalso
          rcases h1 with hs | hw
          · rcases hcond.2 with hf | hvs
            · exact Bool.false_ne_true hf
            · exact hvs hs
          · rw [heq, Option.some_inj] at hw
            exact hcond.1 hw
        · exact ih (i + 1) d chg h2
      · rename_i heq
        split
        · rename_i hvs
          rcases h1 with hs | hw
          · exact absurd hs hvs
          · rw [heq] at hw
            cases hw
        · exact ih (i + 1) d chg h2

theorem retryGoFeeder_waits (maxR base maxW : Nat) :
    ∀ k r, (retryGoFeeder maxR base maxW r
        (List.replicate k Outcome.connError ++ [Outcome.success])).waits
      = (List.range (min k (maxR - r))).map
          (fun n => min (base * 2 ^ (r + n)) maxW) := by
  intro k
  induction k with
  | zero =>
      intro r
      rw [List.replicate_zero, List.nil_append, retryGoFeeder]
      split
      · simp
      · simp
  | succ k ih =>
      intro r
      rw [List.replicate_succ, List.cons_append, retryGoFeeder]
      by_cases hr : r < maxR
      · rw [if_pos hr]
        have hmm : min (k + 1) (maxR - r) = min k (maxR - (r + 1)) + 1 := by
          omega
        have hfun : ((fun n => min (base * 2 ^ (r + n)) maxW) ∘ Nat.succ)
            = fun n => min (base * 2 ^ (r + 1 + n)) maxW := by
          funext n
          simp only [Function.comp]
          rw [show r + (n + 1) = r + 1 + n from by omega]
        simp only []
        rw [ih (r + 1), hmm, List.range_succ_eq_map, List.map_cons,
          List.map_map, hfun]
        simp
      · rw [if_neg hr]
        have h0 : maxR - r = 0 := by omega
        simp [h0]

theorem retryGoRequest_waits (maxR base maxW : Nat) :
    ∀ k r, (retryGoRequest maxR base maxW r
        (List.replicate k Outcome.connError ++ [Outcome.success])).waits
      = (List.range (min k (maxR - r))).map
          (fun n => min (base * 2 ^ (r + n)) maxW) := by
  intro k
  induction k with
  | zero =>
      intro r
      rw [List.replicate_zero, List.nil_append, retryGoRequest]
      split
      · simp
      · simp
  | succ k ih =>
      intro r
      rw [List.replicate_succ, List.cons_append, retryGoRequest]
      by_cases hr : r < maxR
      · rw [if_pos hr]
        have hmm : min (k + 1) (maxR - r) = min k (maxR - (r + 1)) + 1 := by
          omega
        have hfun : ((fun n => min (base * 2 ^ (r + n)) maxW) ∘ Nat.succ)
            = fun n => min (base * 2 ^ (r + 1 + n)) maxW := by
          funext n
          simp only [Function.comp]
          rw [show r + (n + 1) = r + 1 + n from by omega]
        simp only []
        rw [ih (r + 1), hmm, List.range_succ_eq_map, List.map_cons,
          List.map_map, hfun]
        simp
      · rw [if_neg hr]
        have h0 : maxR - r = 0 := by omega
        simp [h0]

theorem retryGoFeeder_waits_len (maxR base maxW : Nat) :
    ∀ outs r, (retryGoFeeder maxR base maxW r outs).waits.length
      ≤ maxR - r := by
  intro outs
  induction outs with
  | nil =>
      intro r
      rw [retryGoFeeder]
      split
      · simp
      · simp
  | cons o rest ih =>
      intro r
      cases o with
      | success =>
          rw [retryGoFeeder]
          split
          · simp
          · simp
      | respError =>
          rw [retryGoFeeder]
          split
          · simp
          · simp
      | otherError =>
          rw [retryGoFeeder]
          split
          · simp
          · simp
      | connError =>
          rw [retryGoFeeder]
          split
          · rename_i hr
            simp only [List.length_cons]
            have hrec := ih (r + 1)
            omega
          · simp

theorem retryGoRequest_waits_len (maxR base maxW : Nat) :
    ∀ outs r, (retryGoRequest maxR base maxW r outs).waits.length
      ≤ maxR - r := by
  intro outs
  induction outs with
  | nil =>
      intro r
      rw [retryGoRequest]
      split
      · simp
      · simp
  | cons o rest ih =>
      intro r
      cases o with
      | success =>
          rw [retryGoRequest]
          split
          · simp
          · simp
      | respError =>
          rw [retryGoRequest]
          split
          · simp
          · simp
      | otherError =>
          rw [retryGoRequest]
          split
          · simp
          · simp
      | connError =>
          rw [retryGoRequest]
          split
          · rename_i hr
            simp only [List.length_cons]
            have hrec := ih (r + 1)
            omega
          · simp

theorem kiteSetMode_cons (d : List (Nat × String)) (m : String) (t : Nat)
    (ts : List Nat) :
    kiteSetMode d m (t :: ts) = kiteSetMode (asetK d t m) m ts := rfl

theorem kiteSubscribe_eq_setMode (d : List (Nat × String))
    (ts : List Nat) : kiteSubscribe d ts = kiteSetMode d "quote" ts := rfl

theorem kiteSetMode_not_mem (m : String) (t : Nat) :
    ∀ ts d, ¬ t ∈ ts → aget? (kiteSetMode d m ts) t = aget? d t := by
  intro ts
  induction ts with
  | nil => intro d _; rfl
  | cons s rest ih =>
      intro d ht
      rw [List.mem_cons, not_or] at ht
      rw [kiteSetMode_cons, ih _ ht.2, aget?_asetK_ne _ _ _ _ ht.1]

theorem kiteSetMode_mem (m : String) (t : Nat) :
    ∀ ts d, t ∈ ts → aget? (kiteSetMode d m ts) t = some m := by
  intro ts
  induction ts with
  | nil => intro d ht; cases ht
  | cons s rest ih =>
      intro d ht
      by_cases htr : t ∈ rest
      · rw [kiteSetMode_cons, ih _ htr]
      · have hts : t = s := by
          rcases List.mem_cons.mp ht with h | h
          · exact h
          · exact absurd h htr
        subst hts
        rw [kiteSetMode_cons, kiteSetMode_not_mem m t rest _ htr,
          aget?_asetK_self]

theorem kiteSetMode_id (m : String) :
    ∀ ts (d : List (Nat × String)),
      (∀ t ∈ ts, aget? d t = some m) → kiteSetMode d m ts = d := by
  intro ts
  induction ts with
  | nil => intro d _; rfl
  | cons s rest ih =>
      intro d h
      rw [kiteSetMode_cons, asetK_eq_self d s m (h s (List.mem_cons_self s rest))]
      exact ih d (fun t ht => h t (List.mem_cons_of_mem s ht))

theorem kiteSetMode_nodup (m : String) :
    ∀ ts (d : List (Nat × String)), (akeys d).Nodup →
      (akeys (kiteSetMode d m ts)).Nodup := by
  intro ts
  induction ts with
  | nil => intro d h; exact h
  | cons s rest ih =>
      intro d h
      rw [kiteSetMode_cons]
      exact ih _ (akeys_asetK_nodup d s m h)

theorem mem_akeys_of_isSome {κ α : Type} [DecidableEq κ]
    (d : List (κ × α)) (k : κ) (h : (aget? d k).isSome = true) :
    k ∈ akeys d := by
  by_cases hm : k ∈ akeys d
  · exact hm
  · rw [aget?_eq_none_of_not_mem_akeys d k hm] at h
    cases h

theorem kiteSetMode_akeys (m : String) :
    ∀ ts (d : List (Nat × String)),
      (∀ t ∈ ts, (aget? d t).isSome = true) →
      akeys (kiteSetMode d m ts) = akeys d := by
  intro ts
  induction ts with
  | nil => intro d _; rfl
  | cons s rest ih =>
      intro d h
      have hs : s ∈ akeys d :=
        mem_akeys_of_isSome d s (h s (List.mem_cons_self s rest))
      rw [kiteSetMode_cons, ih (asetK d s m), akeys_asetK, if_pos hs]
      intro t ht
      by_cases hts : t = s
      · subst hts
        rw [aget?_asetK_self]
        rfl
      · rw [aget?_asetK_ne _ _ _ _ hts]
        exact h t (List.mem_cons_of_mem s ht)

theorem kiteUnsubscribe_error :
    ∀ (tokens : List Nat) (subs : List (Nat × String)),
      (∃ t ∈ tokens, aget? subs t = none) →
      ∃ e, kiteUnsubscribe subs tokens = Except.error e := by
  intro tokens
  induction tokens with
  | nil =>
      intro subs h
      obtain ⟨t, ht, _⟩ := h
      cases ht
  | cons t0 rest ih =>
      intro subs h
      obtain ⟨t, ht, hnone⟩ := h
      rw [kiteUnsubscribe]
      cases hget : aget? subs t0 with
      | none => exact ⟨"KeyError", rfl⟩
      | some w =>
          have htr : t ∈ rest := by
            rcases List.mem_cons.mp ht with h0 | h0
            · subst h0
              rw [hget] at hnone
              cases hnone
            · exact h0
          exact ih (apop subs t0) ⟨t, htr, aget?_apop_of_none subs t0 t hnone⟩

theorem dedup_length_le_one {α : Type} [DecidableEq α] (l : List α)
    (h : ∀ a ∈ l, ∀ b ∈ l, a = b) : l.dedup.length ≤ 1 := by
  rcases hd : l.dedup with _ | ⟨x, _ | ⟨y, rest⟩⟩
  · simp
  · simp
  · exfalso
    have hnd := l.nodup_dedup
    rw [hd, List.nodup_cons] at hnd
    have hx : x ∈ l := (List.mem_dedup).mp (hd ▸ List.mem_cons_self x _)
    have hy : y ∈ l := (List.mem_dedup).mp
      (hd ▸ List.mem_cons_of_mem x (List.mem_cons_self y rest))
    exact hnd.1 (h x hx y hy ▸ List.mem_cons_self y rest)

theorem checkModes_error (L : List (Nat × String × Nat))
    (t : Nat × String × Nat) (ht : t ∈ L)
    (hbad : ¬ t.2.2 ∈ ([15, 17, 21] : List Nat)) :
    checkModes L = Except.error
      "Invalid request mode for v2. Only Ticker, Quote and Full packet are allowed." := by
  induction L with
  | nil => cases ht
  | cons h0 rest ih =>
      rw [checkModes]
      by_cases hmode : h0.2.2 ∈ ([15, 17, 21] : List Nat)
      · rw [if_pos hmode]
        rcases List.mem_cons.mp ht with h1 | h1
        · subst h1
          exact absurd hmode hbad
        · exact ih h1
      · rw [if_neg hmode]

theorem checkModes_ok (L : List (Nat × String × Nat))
    (h : ∀ t ∈ L, t.2.2 ∈ ([15, 17, 21] : List Nat)) :
    checkModes L = Except.ok () := by
  induction L with
  | nil => rfl
  | cons h0 rest ih =>
      rw [checkModes, if_pos (h h0 (List.mem_cons_self h0 rest))]
      exact ih (fun t ht => h t (List.mem_cons_of_mem h0 ht))

theorem responseOutput_scrips (rec : CachedRecord) :
    responseOutput false rec "scrips" = responseScrips rec := by
  rw [responseOutput, if_neg (fun h => Bool.false_ne_true h.2),
    if_neg (by decide), if_pos rfl]

theorem responseOutput_depth (rec : CachedRecord) :
    responseOutput false rec "depth" = respFoldDepth rec 0 depth_value [] := by
  rw [responseOutput, if_neg (fun h => Bool.false_ne_true h.2), if_pos rfl]

theorem responseOutput_index (rec : CachedRecord) :
    responseOutput false rec "index" = respFoldIdx rec 0 index_val [] := by
  rw [responseOutput, if_neg (fun h => Bool.false_ne_true h.2),
    if_neg (by decide), if_neg (by decide)]

/-- Claim C1 (code bug).  In the full-mode update branch for index-class
topics, `FyersFeed.__datafeed_resp` guards the merge with
`value != "-2147483648"` — an `int` compared against a string literal,
which is always true in Python — instead of `value != -2147483648` as in
every other branch.  Hence a raw sentinel field value received in an
update frame for an index topic overwrites a previously cached
non-sentinel value and is delivered (scaled) in the emitted tick: with
"ltp" cached as 100, the sentinel update stores -2147483648 into the
cache and emits ltp = -2147483648 / 100. -/
theorem c1_indexSentinelOverwrite :
    (Option.map CachedRecord.fields
        (aget? (processUpdate c1State c1Update).1.resp "if|1|99926000"))
      = some [("ltp", -2147483648)]
    ∧ aget? ((processUpdate c1State c1Update).2.getD []) "ltp"
        = some ((-2147483648 : Rat) / 100) := by
  constructor
  · rfl
  · have hu : (processUpdate c1State c1Update).2
        = some (responseOutput false
            { c1Record with fields := [("ltp", -2147483648)] } "index") := rfl
    rw [hu, Option.getD_some, responseOutput_index,
      respFoldIdx_mem _ index_val (by decide) 0 "ltp" (-2147483648) 0 []
        (by decide) (by decide) (by decide) (by decide),
      if_pos (by decide)]
    simp only [scale, c1Record]
    norm_num

/-- Claim C2 (counterexample).  Scrip topic with cached fields
ltp = 250000 and vol_traded_today = 5; an update frame changes only ltp
(to 260000) and repeats vol_traded_today = 5.  The claim says the emitted
tick contains only the changed field(s) plus identity fields; the tick in
fact also carries the unchanged, non-identity field "vol_traded_today". -/
theorem c2_updateReemitsAll :
    aget? c2Record.fields "vol_traded_today" = some 5
    ∧ aget? ((processUpdate c2State c2Update).2.getD []) "vol_traded_today"
        = some 5
    ∧ aget? ((processUpdate c2State c2Update).2.getD []) "ltp"
        = some ((2600 : Rat)) := by
  have hu : (processUpdate c2State c2Update).2
      = some (responseOutput false
          { c2Record with
            fields := [("ltp", 260000), ("vol_traded_today", 5)] }
          "scrips") := rfl
  refine ⟨rfl, ?_, ?_⟩
  · rw [hu, Option.getD_some, responseOutput_scrips,
      responseScrips_passthrough _ "vol_traded_today" 5 (by decide)
        (by decide) (by decide) (by decide)]
    norm_num
  · rw [hu, Option.getD_some, responseOutput_scrips,
      responseScrips_price _ "ltp" 260000 (by decide) (by decide)]
    simp only [scale, c2Record]
    norm_num

/-- Claim C2 (amended).  A snapshot frame of any class ("sf", "if",
"dp") always emits a tick rendered from the full rebuilt record.  For
scrip- and depth-class topics, a full-mode update frame whose every field
value is the sentinel or equals the cached value changes nothing and
emits no tick; when some field merge fires, the emitted tick is rendered
from the entire merged cached record — every merged table field (except
the scrip output-stage drops "OI"/"Yhigh"/"Ylow") appears in it — not
from the changed fields only. -/
theorem c2_updateDiffing (st : FyersState) (hl : st.lite = false) :
    (∀ (u : UpdateData) (nm : String) (rec0 : CachedRecord),
        aget? st.scrips_sym u.topicId = some nm →
        aget? st.resp nm = some rec0 →
        (noEffectB data_val 0 u.fieldValues rec0.fields = true →
            processUpdate st u = (st, none))
        ∧ (∀ t, (processUpdate st u).2 = some t →
            ∀ k v, k ∈ data_val →
              ¬ k ∈ (["OI", "Yhigh", "Ylow"] : List String) →
              aget? (updStep false data_val 0 u.fieldValues
                  rec0.fields false).1 k = some v →
              (aget? t k).isSome = true))
    ∧ (∀ (u : UpdateData) (nm : String) (rec0 : CachedRecord),
        aget? st.scrips_sym u.topicId = none →
        aget? st.index_sym u.topicId = none →
        aget? st.dp_sym u.topicId = some nm →
        aget? st.resp nm = some rec0 →
        (noEffectB depth_value 0 u.fieldValues rec0.fields = true →
            processUpdate st u = (st, none))
        ∧ (∀ t, (processUpdate st u).2 = some t →
            ∀ k v, k ∈ depth_value →
              aget? (updStep false depth_value 0 u.fieldValues
                  rec0.fields false).1 k = some v →
              (aget? t k).isSome = true))
    ∧ (∀ f : SnapshotData,
        (f.topicName.take 2 = "sf" →
          (processSnapshot st f).2 = some (responseOutput st.lite
            (buildSnapshotRecord data_val f
              ((aget? st.symbol_token f.topicName).getD "") "sf") "scrips"))
        ∧ (f.topicName.take 2 = "if" →
          (processSnapshot st f).2 = some (responseOutput st.lite
            (buildSnapshotRecord index_val f
              ((aget? st.symbol_token f.topicName).getD "") "if") "index"))
        ∧ (f.topicName.take 2 = "dp" →
          (processSnapshot st f).2 = some (responseOutput st.lite
            (buildSnapshotRecord depth_value f
              ((aget? st.symbol_token f.topicName).getD "") "dp")
            "depth"))) := by
  refine ⟨?_, ?_, ?_⟩
  · intro u nm rec0 hsf hrec
    constructor
    · intro hno
      have hm := updStep_noEffect data_val u.fieldValues 0 rec0.fields
        false hno
      simp only [processUpdate, hsf, hrec, hm]
      rw [show ({ rec0 with fields := rec0.fields } : CachedRecord) = rec0
          from rfl,
        asetK_eq_self st.resp nm rec0 hrec]
      rfl
    · intro t ht k v hkd hkdrop hget
      simp only [processUpdate, hsf, hrec] at ht
      by_cases hchg :
          (updStep false data_val 0 u.fieldValues rec0.fields false).2 = true
      · rw [if_pos hchg, Option.some_inj] at ht
        subst ht
        rw [hl, responseOutput_scrips]
        by_cases hpcv : k ∈ precision_calcu_value
        · rw [responseScrips_price _ k v hpcv hget]
          rfl
        · by_cases hlu : k ∈ (["lower_ckt", "upper_ckt"] : List String)
          · rcases List.mem_cons.mp hlu with h0 | h0
            · subst h0
              rw [(responseScrips_ckt _).1]
              rfl
            · rcases List.mem_cons.mp h0 with h1 | h1
              · subst h1
                rw [(responseScrips_ckt _).2]
                rfl
              · cases h1
          · have hfive : ¬ k ∈
                (["lower_ckt", "upper_ckt", "OI", "Yhigh", "Ylow"] :
                  List String) := by
              intro hcon
              rcases List.mem_cons.mp hcon with h0 | h0
              · exact hlu (by rw [h0]; decide)
              · rcases List.mem_cons.mp h0 with h1 | h1
                · exact hlu (by rw [h1]; decide)
                · exact hkdrop h1
            rw [responseScrips_passthrough _ k v hkd hpcv hfive hget]
            rfl
      · rw [if_neg hchg] at ht
        cases ht
  · intro u nm rec0 hns hni hdp hrec
    constructor
    · intro hno
      have hm := updStep_noEffect depth_value u.fieldValues 0 rec0.fields
        false hno
      simp only [processUpdate, hns, hni, hdp, hrec, hm]
      rw [show ({ rec0 with fields := rec0.fields } : CachedRecord) = rec0
          from rfl,
        asetK_eq_self st.resp nm rec0 hrec]
      rfl
    · intro t ht k v hkd hget
      simp only [processUpdate, hns, hni, hdp, hrec] at ht
      by_cases hchg :
          (updStep false depth_value 0 u.fieldValues rec0.fields false).2
            = true
      · rw [if_pos hchg, Option.some_inj] at ht
        subst ht
        rw [hl, responseOutput_depth]
        obtain ⟨j, hj⟩ := List.mem_iff_getElem?.mp hkd
        rw [respFoldDepth_mem _ depth_value (by decide) j k v 0 [] hj hget]
        rfl
      · rw [if_neg hchg] at ht
        cases ht
  · intro f
    refine ⟨?_, ?_, ?_⟩
    · intro hf
      simp [processSnapshot, hf]
    · intro hf
      simp [processSnapshot, hf]
    · intro hf
      simp [processSnapshot, hf]

/-- Claim C2 (witness).  Concrete no-effect updates (one value equal to
the cache, one sentinel) for a scrip topic and for a depth topic leave
the state unchanged and emit nothing. -/
theorem c2_updateDiffing_witness :
    processUpdate c2State { topicId := 9, fieldValues := [250000, -2147483648] }
      = (c2State, none)
    ∧ processUpdate c2DepthState
        { topicId := 3, fieldValues := [100, -2147483648] }
      = (c2DepthState, none) :=
  ⟨((c2_updateDiffing c2State (by decide)).1
      { topicId := 9, fieldValues := [250000, -2147483648] }
      "sf|nse_cm|1333" c2Record (by decide) (by decide)).1 (by decide),
   ((c2_updateDiffing c2DepthState (by decide)).2.1
      { topicId := 3, fieldValues := [100, -2147483648] }
      "dp|nse_cm|1333" c2DepthRecord (by decide) (by decide) (by decide)
      (by decide)).1 (by decide)⟩

/-- Claim C3 (counterexample).  A scrip record caching the raw non-price
fields OI = 42 and lower_ckt = 240000: the emitted output drops "OI"
entirely and forces "lower_ckt" to 0, so non-price fields are not passed
through unscaled. -/
theorem c3_nonPriceNotPassedThrough :
    aget? c3Record.fields "OI" = some 42
    ∧ aget? (responseOutput false c3Record "scrips") "OI" = none
    ∧ aget? c3Record.fields "lower_ckt" = some 240000
    ∧ aget? (responseOutput false c3Record "scrips") "lower_ckt" = some 0 := by
  refine ⟨rfl, ?_, rfl, ?_⟩
  · rw [responseOutput_scrips]
    exact (responseScrips_dropped c3Record).1
  · rw [responseOutput_scrips]
    exact (responseScrips_ckt c3Record).1

/-- Claim C3 (amended).  In every emitted tick the price fields equal the
raw integer divided by `10 ^ precision * multiplier` with precision and
multiplier cached from the topic snapshot: for scrip topics the price
fields are the `precision_calcu_value` names, for depth topics the first
ten table entries, for index topics the entries at enumeration index
0, 1, 3, 4, 5.  Other raw fields pass through unscaled, except that the
scrip output stage always emits lower_ckt = 0 and upper_ckt = 0 and drops
OI, Yhigh and Ylow (and derived ch/chp fields may be added). -/
theorem c3_priceScaling (rec : CachedRecord) :
    (∀ k v, k ∈ precision_calcu_value → aget? rec.fields k = some v →
        aget? (responseOutput false rec "scrips") k = some (scale rec v))
    ∧ (∀ k v, k ∈ data_val → ¬ k ∈ precision_calcu_value →
        ¬ k ∈ (["lower_ckt", "upper_ckt", "OI", "Yhigh", "Ylow"] :
          List String) →
        aget? rec.fields k = some v →
        aget? (responseOutput false rec "scrips") k = some ((v : Rat)))
    ∧ (aget? (responseOutput false rec "scrips") "lower_ckt" = some 0
        ∧ aget? (responseOutput false rec "scrips") "upper_ckt" = some 0
        ∧ aget? (responseOutput false rec "scrips") "OI" = none
        ∧ aget? (responseOutput false rec "scrips") "Yhigh" = none
        ∧ aget? (responseOutput false rec "scrips") "Ylow" = none)
    ∧ (∀ j k v, depth_value[j]? = some k → aget? rec.fields k = some v →
        aget? (responseOutput false rec "depth") k =
          some (if j < 10 then scale rec v else ((v : Rat))))
    ∧ (∀ j k v, index_val[j]? = some k → aget? rec.fields k = some v →
        aget? (responseOutput false rec "index") k =
          some (if j ∈ ([0, 1, 3, 4, 5] : List Nat) then scale rec v
                else ((v : Rat))))
    ∧ (∀ (st : FyersState) (f : SnapshotData), f.topicName.take 2 = "sf" →
        ∃ r, aget? (processSnapshot st f).1.resp f.topicName = some r ∧
          r.multiplier = f.multiplier ∧ r.precision = f.precision)
    ∧ (∀ (st : FyersState) (u : UpdateData) (nm : String)
        (rec0 : CachedRecord),
        aget? st.scrips_sym u.topicId = some nm →
        aget? st.resp nm = some rec0 →
        ∃ r, aget? (processUpdate st u).1.resp nm = some r ∧
          r.multiplier = rec0.multiplier ∧ r.precision = rec0.precision) := by
  refine ⟨?_, ?_, ?_, ?_, ?_, ?_, ?_⟩
  · intro k v hk hv
    rw [responseOutput_scrips]
    exact responseScrips_price rec k v hk hv
  · intro k v hk1 hk2 hk3 hv
    rw [responseOutput_scrips]
    exact responseScrips_passthrough rec k v hk1 hk2 hk3 hv
  · rw [responseOutput_scrips]
    exact ⟨(responseScrips_ckt rec).1, (responseScrips_ckt rec).2,
      (responseScrips_dropped rec).1, (responseScrips_dropped rec).2.1,
      (responseScrips_dropped rec).2.2⟩
  · intro j k v hj hv
    rw [responseOutput_depth,
      respFoldDepth_mem rec depth_value (by decide) j k v 0 [] hj hv,
      Nat.zero_add]
  · intro j k v hj hv
    have hk : k ∈ index_val := List.getElem?_mem hj
    rw [responseOutput_index,
      respFoldIdx_mem rec index_val (by decide) j k v 0 [] hj hv
        (ne_of_mem_of_not_mem hk (by decide))
        (ne_of_mem_of_not_mem hk (by decide)),
      Nat.zero_add]
  · intro st f hf
    refine ⟨buildSnapshotRecord data_val f
      ((aget? st.symbol_token f.topicName).getD "") "sf", ?_, rfl, rfl⟩
    simp [processSnapshot, hf, aget?_asetK_self]
  · intro st u nm rec0 hsf hrec
    refine ⟨{ rec0 with
      fields := (updStep false data_val 0 u.fieldValues rec0.fields false).1 },
      ?_, rfl, rfl⟩
    simp only [processUpdate, hsf, hrec]
    rw [aget?_asetK_self]

/-- Claim C3 (witness).  Concrete applications: "ltp" (a price field) is
scaled by `10 ^ 2 * 1`, "OI" is dropped, and the index rendering scales
entry 0. -/
theorem c3_priceScaling_witness :
    aget? (responseOutput false c3Record "scrips") "ltp"
      = some (scale c3Record 250000)
    ∧ aget? (responseOutput false c3Record "scrips") "OI" = none
    ∧ aget? (responseOutput false c3Record "index") "ltp"
      = some (scale c3Record 250000) := by
  refine ⟨(c3_priceScaling c3Record).1 "ltp" 250000 (by decide) (by decide),
    (c3_priceScaling c3Record).2.2.1.2.2.1, ?_⟩
  rw [(c3_priceScaling c3Record).2.2.2.2.1 0 "ltp" 250000 (by decide)
    (by decide), if_pos (by decide)]

/-- Claim C4 (counterexample).  Receiving the in-band terminal disconnect
code 807 ("Access Token is expired") does not close the connection or
session and reports nothing: `DhanFeed._process_disconnect` only attempts
a log line, and even that is dead code — the `int` code is looked up
among `str` keys, which never match — contradicting the claim that the
wrapper closes the connection/session and reports the terminal
failure. -/
theorem c4_terminalDisconnectIgnored :
    processDisconnect 807 = { logged := none, closeCalled := false } := rfl

/-- Claim C4 (amended).  When a retry-wrapped invocation raises a
terminal exception (`aiohttp.ClientResponseError`, or any exception other
than `ClientConnectionError`), `AbstractFeeder.retry` stops immediately,
calls `close`, and performs zero further retry attempts — one invocation,
no backoff waits, the retry counter still 0.  A terminal disconnect code
received in-band, however, is not acted on at all: `_process_disconnect`
neither closes nor (because the `int` code is tested against `str` dict
keys) even logs the mapped message; no reconnect attempt results because
nothing is raised. -/
theorem c4_terminalNoRetry :
    (∀ (maxR base maxW : Nat) (rest : List Outcome) (o : Outcome),
        0 < maxR → (o = Outcome.respError ∨ o = Outcome.otherError) →
        retryGoFeeder maxR base maxW 0 (o :: rest) =
          { invocations := 1, waits := [], closedCalled := true,
            exhausted := false, propagated := false })
    ∧ (∀ code : Int, processDisconnect code =
        { logged := none, closeCalled := false }) := by
  constructor
  · intro maxR base maxW rest o hmax ho
    rcases ho with ho | ho
    · subst ho
      rw [retryGoFeeder, if_pos hmax]
    · subst ho
      rw [retryGoFeeder, if_pos hmax]
  · intro code
    rw [processDisconnect]
    have hnone : aget? disconnect_str_map (PyKey.pint code) = none := by
      rw [disconnect_str_map, aget?, if_neg (fun h => PyKey.noConfusion h),
        aget?, if_neg (fun h => PyKey.noConfusion h),
        aget?, if_neg (fun h => PyKey.noConfusion h),
        aget?, if_neg (fun h => PyKey.noConfusion h),
        aget?, if_neg (fun h => PyKey.noConfusion h), aget?]
    rw [hnone]

/-- Claim C4 (witness).  A first-invocation `ClientResponseError` under
the production parameters (5, 2, 60): close called, no waits, no further
invocations; and disconnect code 808 produces no close and no log. -/
theorem c4_terminalNoRetry_witness :
    retryGoFeeder 5 2 60 0 [Outcome.respError]
      = { invocations := 1, waits := [], closedCalled := true,
          exhausted := false, propagated := false }
    ∧ processDisconnect 808 = { logged := none, closeCalled := false } :=
  ⟨c4_terminalNoRetry.1 5 2 60 [] Outcome.respError (by decide) (Or.inl rfl),
   c4_terminalNoRetry.2 808⟩

/-- Claim C5.  For both retry decorators the wait after the n-th
consecutive transient failure (n counted from 0) is
`min(base_wait * 2 ^ n, max_wait)`, and a run performs at most
`max_retries` backoff waits before stopping. -/
theorem c5_backoffSequence :
    (∀ (maxR base maxW k : Nat), k ≤ maxR →
        (retryGoFeeder maxR base maxW 0
            (List.replicate k Outcome.connError ++ [Outcome.success])).waits
          = (List.range k).map (fun n => min (base * 2 ^ n) maxW))
    ∧ (∀ (maxR base maxW k : Nat), k ≤ maxR →
        (retryGoRequest maxR base maxW 0
            (List.replicate k Outcome.connError ++ [Outcome.success])).waits
          = (List.range k).map (fun n => min (base * 2 ^ n) maxW))
    ∧ (∀ (maxR base maxW : Nat) (outs : List Outcome),
        (retryGoFeeder maxR base maxW 0 outs).waits.length ≤ maxR)
    ∧ (∀ (maxR base maxW : Nat) (outs : List Outcome),
        (retryGoRequest maxR base maxW 0 outs).waits.length ≤ maxR) := by
  refine ⟨?_, ?_, ?_, ?_⟩
  · intro maxR base maxW k hk
    rw [retryGoFeeder_waits maxR base maxW k 0, Nat.sub_zero,
      min_eq_left hk]
    congr 1
    funext n
    rw [Nat.zero_add]
  · intro maxR base maxW k hk
    rw [retryGoRequest_waits maxR base maxW k 0, Nat.sub_zero,
      min_eq_left hk]
    congr 1
    funext n
    rw [Nat.zero_add]
  · intro maxR base maxW outs
    have h := retryGoFeeder_waits_len maxR base maxW outs 0
    omega
  · intro maxR base maxW outs
    have h := retryGoRequest_waits_len maxR base maxW outs 0
    omega

/-- Claim C5 (witness).  With `base_wait = 2, max_wait = 60` the
successive waits are 2, 4, 8, 16, 32, 60, 60; the `AsyncRequest`
defaults (3, 30) give 3, 6, 12, 24, 30. -/
theorem c5_backoffSequence_witness :
    (retryGoFeeder 7 2 60 0
        (List.replicate 7 Outcome.connError ++ [Outcome.success])).waits
      = [2, 4, 8, 16, 32, 60, 60]
    ∧ (retryGoRequest 5 3 30 0
        (List.replicate 5 Outcome.connError ++ [Outcome.success])).waits
      = [3, 6, 12, 24, 30] := by
  constructor
  · rw [c5_backoffSequence.1 7 2 60 7 (by decide)]
    decide
  · rw [c5_backoffSequence.2.1 5 3 30 5 (by decide)]
    decide

/-- Claim C6 (counterexample).  `KiteFeed.unsubscribe` removes each token
with a no-default `dict.pop`, so unsubscribing a token that is not in the
active set raises `KeyError` instead of being a no-op: with an empty
active set, unsubscribing token 5 errors. -/
theorem c6_kiteUnsubscribeRaises :
    kiteUnsubscribe ([] : List (Nat × String)) [5]
      = Except.error "KeyError" := rfl

/-- Claim C6 (amended).  `DhanFeed.unsubscribe_symbols` computes a set
difference, so a tuple not currently subscribed is a no-op: membership in
the tracked set afterwards is exactly "was subscribed and not requested",
and nothing is raised by the difference.  `KiteFeed.unsubscribe`, by
contrast, raises `KeyError` whenever some requested token is not in the
active set. -/
theorem c6_unsubscribeNoOp :
    (∀ (subscribed symbols : List DTuple) (x : DTuple),
        x ∈ dhanUnsubscribeTracked subscribed symbols ↔
          (x ∈ subscribed ∧ ¬ x ∈ symbols))
    ∧ (∀ (subs : List (Nat × String)) (tokens : List Nat),
        (∃ t ∈ tokens, aget? subs t = none) →
        ∃ e, kiteUnsubscribe subs tokens = Except.error e) := by
  constructor
  · intro subscribed symbols x
    rw [dhanUnsubscribeTracked, List.mem_filter, List.mem_dedup]
    simp
  · intro subs tokens h
    exact kiteUnsubscribe_error tokens subs h

/-- Claim C6 (witness).  Removing a subscribed tuple keeps the other
tuple; unsubscribing token 9, which is not subscribed, errors even though
token 7 is subscribed. -/
theorem c6_unsubscribeNoOp_witness :
    ((DTuple.two 1 "5") ∈ dhanUnsubscribeTracked
        [DTuple.two 1 "5", DTuple.two 2 "9"] [DTuple.two 2 "9"]
      ↔ ((DTuple.two 1 "5") ∈ [DTuple.two 1 "5", DTuple.two 2 "9"]
          ∧ ¬ (DTuple.two 1 "5") ∈ [DTuple.two 2 "9"]))
    ∧ (∃ e, kiteUnsubscribe [(7, "quote")] [7, 9] = Except.error e) :=
  ⟨c6_unsubscribeNoOp.1 [DTuple.two 1 "5", DTuple.two 2 "9"]
      [DTuple.two 2 "9"] (DTuple.two 1 "5"),
   c6_unsubscribeNoOp.2 [(7, "quote")] [7, 9] ⟨9, by decide, by decide⟩⟩

/-- Claim C7.  `KiteFeed.subscribe` writes `token -> "quote"` into the
`subscribed_tokens` dict, so issuing it twice with the same token list
yields the same tracked state as issuing it once and key distinctness is
preserved; `KiteFeed.set_mode` replaces the tracked mode in place (the
key set is unchanged when every token is present, and each token maps to
the new mode); `DhanFeed.subscribe` replaces `self.subscribed`
wholesale, so a repeat call leaves the same tracked list. -/
theorem c7_subscribeIdempotent :
    (∀ (d : List (Nat × String)) (s : List Nat),
        kiteSubscribe (kiteSubscribe d s) s = kiteSubscribe d s)
    ∧ (∀ (d : List (Nat × String)) (s : List Nat),
        (akeys d).Nodup → (akeys (kiteSubscribe d s)).Nodup)
    ∧ (∀ (d : List (Nat × String)) (m : String) (ts : List Nat),
        (∀ t ∈ ts, (aget? d t).isSome = true) →
        akeys (kiteSetMode d m ts) = akeys d)
    ∧ (∀ (d : List (Nat × String)) (m : String) (ts : List Nat) (t : Nat),
        t ∈ ts → aget? (kiteSetMode d m ts) t = some m)
    ∧ (∀ symbols : List DTuple, (dhanSubscribe symbols).1 = symbols) := by
  refine ⟨?_, ?_, ?_, ?_, ?_⟩
  · intro d s
    rw [kiteSubscribe_eq_setMode d s, kiteSubscribe_eq_setMode]
    exact kiteSetMode_id "quote" s _
      (fun t ht => kiteSetMode_mem "quote" t s d ht)
  · intro d s h
    rw [kiteSubscribe_eq_setMode]
    exact kiteSetMode_nodup "quote" s d h
  · intro d m ts h
    exact kiteSetMode_akeys m ts d h
  · intro d m ts t ht
    exact kiteSetMode_mem m t ts d ht
  · intro symbols
    rfl

/-- Claim C7 (witness).  Double-subscribing two tokens equals a single
subscribe; a mode change on a subscribed token keeps the key set and
replaces the mode. -/
theorem c7_subscribeIdempotent_witness :
    kiteSubscribe (kiteSubscribe [] [408065, 738561]) [408065, 738561]
      = kiteSubscribe [] [408065, 738561]
    ∧ akeys (kiteSetMode [(408065, "quote")] "full" [408065])
        = akeys [(408065, "quote")]
    ∧ aget? (kiteSetMode [(408065, "quote")] "full" [408065]) 408065
        = some "full" :=
  ⟨c7_subscribeIdempotent.1 [] [408065, 738561],
   c7_subscribeIdempotent.2.2.1 [(408065, "quote")] "full" [408065]
     (by decide),
   c7_subscribeIdempotent.2.2.2.1 [(408065, "quote")] "full" [408065]
     408065 (by decide)⟩

/-- Claim C8.  When the tracked `symbol_token` size plus the resolved
request size exceeds 5000, `FyersFeed.subscribe` rejects the call before
transmitting: no subscribe frame, exactly the structured capacity error
`{code: -99, message: "Please provide less than 5000 symbols"}`, and the
tracked subscription state (`symbol_token`, `scrips_count`,
`scrips_per_channel`) unchanged. -/
theorem c8_capacityCeiling (st : FySubState) (ch : Nat)
    (resolved : List (String × String)) (rawCount : Nat)
    (h : 5000 < st.symbolTok.length + resolved.length) :
    (fyersSubscribe st ch resolved rawCount).2.1 = []
    ∧ (fyersSubscribe st ch resolved rawCount).2.2 = [limitExceedError]
    ∧ (fyersSubscribe st ch resolved rawCount).1.symbolTok = st.symbolTok
    ∧ (fyersSubscribe st ch resolved rawCount).1.scripsCount
        = st.scripsCount
    ∧ (fyersSubscribe st ch resolved rawCount).1.scripsPerChannel
        = st.scripsPerChannel := by
  rw [fyersSubscribe]
  split
  · exact ⟨rfl, rfl, rfl, rfl, rfl⟩
  · rw [if_pos (show 5000 <
        (channelResumePause st ch).symbolTok.length + resolved.length
        from h)]
    exact ⟨rfl, rfl, rfl, rfl, rfl⟩

/-- Claim C8 (witness).  An empty state and a 5001-symbol resolved
request: rejected with the capacity error, no frames, state unchanged. -/
theorem c8_capacityCeiling_witness :
    (fyersSubscribe (⟨[], [], [], [], none⟩ : FySubState) 11
        (List.replicate 5001 ("t", "s")) 5001).2.1 = []
    ∧ (fyersSubscribe (⟨[], [], [], [], none⟩ : FySubState) 11
        (List.replicate 5001 ("t", "s")) 5001).2.2 = [limitExceedError]
    ∧ (fyersSubscribe (⟨[], [], [], [], none⟩ : FySubState) 11
        (List.replicate 5001 ("t", "s")) 5001).1.symbolTok
        = (⟨[], [], [], [], none⟩ : FySubState).symbolTok := by
  have h : 5000 < (⟨[], [], [], [], none⟩ : FySubState).symbolTok.length
      + (List.replicate 5001 (("t", "s") : String × String)).length := by
    simp only [List.length_replicate]
    omega
  exact ⟨(c8_capacityCeiling _ 11 _ 5001 h).1,
    (c8_capacityCeiling _ 11 _ 5001 h).2.1,
    (c8_capacityCeiling _ 11 _ 5001 h).2.2.1⟩

/-- Claim C9.  Both `close` methods set `connected = False` and close the
websocket identically whether or not the session was injected; the
underlying `aiohttp.ClientSession` is closed exactly when the feeder
created it itself (`sessionCloseCalled` is `not shared and not already
closed`; an injected session keeps its prior closed-state). -/
theorem c9_closeSharedSession (s : SessState) :
    (fyersClose s).st.connected = false
    ∧ (kiteClose s).st.connected = false
    ∧ (fyersClose s).sessionCloseCalled
        = (!s.sharedSession && !s.sessionClosed)
    ∧ (kiteClose s).sessionCloseCalled
        = (!s.sharedSession && !s.sessionClosed)
    ∧ (fyersClose s).st.sessionClosed
        = (if s.sharedSession then s.sessionClosed else true)
    ∧ (kiteClose s).st.sessionClosed
        = (if s.sharedSession then s.sessionClosed else true)
    ∧ (fyersClose { s with sharedSession := true }).wsCloseCalled
        = (fyersClose { s with sharedSession := false }).wsCloseCalled
    ∧ (fyersClose { s with sharedSession := true }).st.wsClosed
        = (fyersClose { s with sharedSession := false }).st.wsClosed
    ∧ (kiteClose { s with sharedSession := true }).wsCloseCalled
        = (kiteClose { s with sharedSession := false }).wsCloseCalled := by
  obtain ⟨a, b, c, d, e⟩ := s
  cases a <;> cases b <;> cases c <;> cases d <;> cases e <;> decide

/-- Claim C10.  For a same-arity Dhan subscription list containing a
3-tuple whose mode is outside `(15, 17, 21)` — `Depth = 19`, the class's
own declared constant, included — `subscribe` raises the mode
`ValueError` before sending any control frame; 2-tuples are always
normalized with the default Ticker mode 15; an all-2-tuple list
validates successfully. -/
theorem c10_depthModeRejected (l : List DTuple)
    (h1 : ∀ t1 ∈ l, ∀ t2 ∈ l, arity t1 = arity t2)
    (h2 : ∃ ex id m, DTuple.three ex id m ∈ l ∧
        ¬ m ∈ ([15, 17, 21] : List Nat)) :
    (dhanSubscribe l).2 = Except.error
        "Invalid request mode for v2. Only Ticker, Quote and Full packet are allowed."
    ∧ (∀ l2 : List DTuple, (∀ t ∈ l2, arity t = 2) →
        ∃ d, validateAndProcessTuples l2 100 = Except.ok d)
    ∧ (∀ ex id, normalizeTup (DTuple.two ex id) = (ex, id, 15)) := by
  refine ⟨?_, ?_, ?_⟩
  · obtain ⟨ex, id, m, hmem, hbad⟩ := h2
    have harity : ¬ ((l.map arity).dedup.length > 1) := by
      have hle := dedup_length_le_one (l.map arity) ?_
      · omega
      · intro a ha b hb
        obtain ⟨ta, hta, rfl⟩ := List.mem_map.mp ha
        obtain ⟨tb, htb, rfl⟩ := List.mem_map.mp hb
        exact h1 ta hta tb htb
    have hproc : ((ex, id, m) : Nat × String × Nat)
        ∈ (l.map normalizeTup).dedup := by
      rw [List.mem_dedup]
      exact List.mem_map.mpr ⟨DTuple.three ex id m, hmem, rfl⟩
    have hck := checkModes_error (l.map normalizeTup).dedup (ex, id, m)
      hproc hbad
    show (validateAndProcessTuples l 100).map dhanFrames = Except.error _
    simp only [validateAndProcessTuples]
    rw [if_neg harity, hck]
    rfl
  · intro l2 h2tup
    have harity : ¬ ((l2.map arity).dedup.length > 1) := by
      have hle := dedup_length_le_one (l2.map arity) ?_
      · omega
      · intro a ha b hb
        obtain ⟨ta, hta, rfl⟩ := List.mem_map.mp ha
        obtain ⟨tb, htb, rfl⟩ := List.mem_map.mp hb
        rw [h2tup ta hta, h2tup tb htb]
    have hall : ∀ t ∈ (l2.map normalizeTup).dedup,
        t.2.2 ∈ ([15, 17, 21] : List Nat) := by
      intro t ht
      rw [List.mem_dedup] at ht
      obtain ⟨orig, horig, rfl⟩ := List.mem_map.mp ht
      cases orig with
      | two ex id =>
          exact (by decide : (15 : Nat) ∈ ([15, 17, 21] : List Nat))
      | three ex id m =>
          have hcon := h2tup (DTuple.three ex id m) horig
          simp [arity] at hcon
    refine ⟨([15, 17, 19, 21] : List Nat).map
      (fun m => (m, chunks 100 (modeGroup ((l2.map normalizeTup).dedup) m))),
      ?_⟩
    simp only [validateAndProcessTuples]
    rw [if_neg harity, checkModes_ok _ hall]
  · intro ex id
    rfl

/-- Claim C10 (witness).  The docstring's own depth example
`(NSE, "11915", Depth)` — mode 19 — is rejected with the mode
`ValueError`. -/
theorem c10_depthModeRejected_witness :
    (dhanSubscribe [DTuple.three 1 "11915" 19]).2 = Except.error
        "Invalid request mode for v2. Only Ticker, Quote and Full packet are allowed."
    ∧ normalizeTup (DTuple.two 1 "1333") = (1, "1333", 15) :=
  ⟨(c10_depthModeRejected [DTuple.three 1 "11915" 19] (by decide)
      ⟨1, "11915", 19, by decide, by decide⟩).1,
   (c10_depthModeRejected [DTuple.three 1 "11915" 19] (by decide)
      ⟨1, "11915", 19, by decide, by decide⟩).2.2 1 "1333"⟩
